import Mathlib

/-!
Verification development for the affiliation-resolution and evaluation
subsystem of the paper-agent repository.

The Python sources under `src/` are shallowly embedded here:
  * `src/knowledge_base.py`  — the static organization table, the derived
    variant index and `lookup_organization`;
  * `src/normalizer.py`      — `OrganizationNormalizer` (cascade + cache);
  * `src/evaluation.py`      — `EvaluationEngine` (fuzzy bipartite matching,
    precision/recall/F1, accuracies, composite score) and the gold-standard
    dataset save/load;
  * `src/data_sources/ror.py` — the ROR registry client candidate selection.

Machine floats are modelled as rationals, Python dicts as insertion-ordered
association lists (updates keep the key position, as CPython does), Python
sets as first-occurrence-deduplicated lists, and the rapidfuzz scorers by
their documented arithmetic: `fuzz.ratio` is the normalized InDel similarity
`100 * (len1 + len2 - dist) / (len1 + len2)` with
`dist = len1 + len2 - 2 * lcs`, and `fuzz.token_sort_ratio` applies it after
splitting on whitespace, sorting the tokens and joining with single spaces.
-/

/-! ## Python string primitives (str.lower, str.strip, str.split) -/

/-- Lowering of a single character as Python `str.lower` acts on the
characters that occur in the knowledge-base data: ASCII `A`-`Z`, the
Cyrillic range `А`-`Я`, and `É`. All other characters are unchanged. -/
def pyLowerChar (c : Char) : Char :=
  if 'A' ≤ c ∧ c ≤ 'Z' then Char.ofNat (c.toNat + 32)
  else if c.toNat ≥ 0x410 ∧ c.toNat ≤ 0x42F then Char.ofNat (c.toNat + 32)
  else if c.toNat = 0xC9 then Char.ofNat 0xE9
  else c

/-- Embedding of Python `str.lower` (character map). -/
def pyLower (s : List Char) : List Char := s.map pyLowerChar

/-- Whitespace characters stripped by Python `str.strip()` / split on by
`str.split()` (the ASCII ones, which are the only ones relevant here). -/
def isPySpace (c : Char) : Bool :=
  c == ' ' || c == '\t' || c == '\n' || c == '\r' || c == '\x0b' || c == '\x0c'

/-- Embedding of Python `str.strip()`: drop leading and trailing whitespace. -/
def pyStrip (s : List Char) : List Char :=
  ((s.dropWhile isPySpace).reverse.dropWhile isPySpace).reverse

/-- Embedding of Python `str.split()` (no separator): split on runs of
whitespace, producing no empty tokens. The accumulator holds the current
token reversed. -/
def pySplitAux : List Char → List Char → List (List Char)
  | [], acc => if acc.isEmpty then [] else [acc.reverse]
  | c :: cs, acc =>
    if isPySpace c then
      if acc.isEmpty then pySplitAux cs [] else acc.reverse :: pySplitAux cs []
    else pySplitAux cs (c :: acc)

/-- Whitespace split of a character list into tokens. -/
def pySplit (s : List Char) : List (List Char) := pySplitAux s []

/-- Lexicographic (code-point) order on character lists, the order Python
uses to sort strings. -/
def lexLe : List Char → List Char → Bool
  | [], _ => true
  | _ :: _, [] => false
  | a :: as, b :: bs =>
    if a.toNat < b.toNat then true
    else if a.toNat > b.toNat then false
    else lexLe as bs

/-- Insertion of a token into a lexicographically sorted token list. -/
def insertToken (x : List Char) : List (List Char) → List (List Char)
  | [] => [x]
  | y :: ys => if lexLe x y then x :: y :: ys else y :: insertToken x ys

/-- Insertion sort of a token list in code-point order (the sort performed
by `token_sort_ratio`; ties are between identical strings, so stability is
irrelevant). -/
def sortTokens : List (List Char) → List (List Char)
  | [] => []
  | x :: xs => insertToken x (sortTokens xs)

/-- Joining of tokens with single spaces, as `token_sort_ratio` rebuilds the
compared strings. -/
def joinTokens : List (List Char) → List Char
  | [] => []
  | [t] => t
  | t :: ts => t ++ ' ' :: joinTokens ts

/-- Token-sort normalization: split on whitespace, sort, re-join. -/
def tokenSortNorm (s : List Char) : List Char := joinTokens (sortTokens (pySplit s))

/-! ## Longest common subsequence and the rapidfuzz scorers -/

/-- One step of the LCS dynamic-programming row update. Given the previous
row (excluding its leading cell, which is passed as `diag`) and the cell to
the left of the one being produced, produce the rest of the current row. -/
def lcsRowAux (c : Char) : List Char → Nat → List Nat → List Nat
  | [], _, _ => []
  | y :: ys, left, prev =>
    match prev with
    | [] => []
    | diag :: rest =>
      let up := rest.headD 0
      let v := if c == y then diag + 1 else max up left
      v :: lcsRowAux c ys v rest

/-- Next full LCS row for character `c` of the first string, given the
previous row over prefixes of `ys`. -/
def lcsNextRow (c : Char) (ys : List Char) (prev : List Nat) : List Nat :=
  0 :: lcsRowAux c ys 0 prev

/-- Length of the longest common subsequence of two character lists,
computed by row-wise dynamic programming. -/
def lcsLen (xs ys : List Char) : Nat :=
  (xs.foldl (fun prev c => lcsNextRow c ys prev)
    (List.replicate (ys.length + 1) 0)).getLastD 0

/-- Embedding of `rapidfuzz.fuzz.ratio`: the normalized InDel similarity on
a 0-100 scale, `100` when both inputs are empty. The exact rational
`200 * lcs / (len1 + len2)` is built with `mkRat` so that it evaluates by
kernel reduction. -/
def indelScore (xs ys : List Char) : ℚ :=
  if xs.length + ys.length = 0 then 100
  else mkRat (200 * (lcsLen xs ys : Int)) (xs.length + ys.length)

/-- Embedding of `rapidfuzz.fuzz.token_sort_ratio` on strings. -/
def tokenSortScore (s1 s2 : String) : ℚ :=
  indelScore (tokenSortNorm s1.data) (tokenSortNorm s2.data)

/-! Bounds on the DP rows, giving `lcsLen xs ys ≤ min xs.length ys.length`
and hence `indelScore ≤ 100`. -/

theorem mem_of_getLast?_eq : ∀ {l : List Nat} {a : Nat}, l.getLast? = some a → a ∈ l
  | [], _, h => by simp at h
  | [x], a, h => by
    simp only [List.getLast?_singleton, Option.some.injEq] at h
    simp [h]
  | _ :: y :: t, a, h => by
    rw [List.getLast?_cons_cons] at h
    exact List.mem_cons_of_mem _ (mem_of_getLast?_eq h)

theorem getLastD_le_of_forall_mem {r : List Nat} {B : Nat}
    (h : ∀ p ∈ r, p ≤ B) : r.getLastD 0 ≤ B := by
  cases hr : r.getLast? with
  | none => simp [List.getLastD_eq_getLast?, hr]
  | some v =>
    have hv : v ∈ r := mem_of_getLast?_eq hr
    simpa [List.getLastD_eq_getLast?, hr] using h v hv

theorem getD_replicate_zero (n i : Nat) : (List.replicate n (0 : Nat)).getD i 0 = 0 := by
  induction n generalizing i with
  | zero => simp
  | succ n ih =>
    cases i with
    | zero => simp [List.replicate]
    | succ i => simp [List.replicate, ih i]

theorem lcsRowAux_mem_le (c : Char) :
    ∀ (ys : List Char) (left : Nat) (prev : List Nat) (B : Nat),
      (∀ p ∈ prev, p ≤ B) → left ≤ B + 1 →
      ∀ v ∈ lcsRowAux c ys left prev, v ≤ B + 1 := by
  intro ys
  induction ys with
  | nil => intro left prev B _ _ v hv; simp [lcsRowAux] at hv
  | cons y ys ih =>
    intro left prev B hprev hleft v hv
    match prev with
    | [] => simp [lcsRowAux] at hv
    | diag :: rest =>
      have hdiag : diag ≤ B := hprev _ (by simp)
      have hup : rest.headD 0 ≤ B := by
        cases rest with
        | nil => simp
        | cons r rs => exact hprev r (by simp)
      have hval : (if c == y then diag + 1 else max (rest.headD 0) left) ≤ B + 1 := by
        split
        · omega
        · exact max_le (by omega) hleft
      simp only [lcsRowAux, List.mem_cons] at hv
      rcases hv with h | h
      · omega
      · exact ih _ rest B (fun p hp => hprev p (by simp [hp])) hval v h

theorem lcsLen_le_left (xs ys : List Char) : lcsLen xs ys ≤ xs.length := by
  unfold lcsLen
  have main : ∀ (l : List Char) (prev : List Nat) (B : Nat), (∀ p ∈ prev, p ≤ B) →
      ∀ v ∈ l.foldl (fun prev c => lcsNextRow c ys prev) prev, v ≤ B + l.length := by
    intro l
    induction l with
    | nil => intro prev B hprev v hv; simpa using hprev v hv
    | cons c cs ih =>
      intro prev B hprev v hv
      simp only [List.foldl_cons] at hv
      have hrow : ∀ p ∈ lcsNextRow c ys prev, p ≤ B + 1 := by
        intro p hp
        simp only [lcsNextRow, List.mem_cons] at hp
        rcases hp with h | h
        · omega
        · exact lcsRowAux_mem_le c ys 0 prev B hprev (by omega) p h
      have := ih (lcsNextRow c ys prev) (B + 1) hrow v hv
      simp only [List.length_cons] at *
      omega
  have h0 : ∀ p ∈ List.replicate (ys.length + 1) 0, p ≤ 0 := by
    intro p hp; simp [List.eq_of_mem_replicate hp]
  have := main xs (List.replicate (ys.length + 1) 0) 0 h0
  exact le_trans (getLastD_le_of_forall_mem (by intro p hp; exact this p hp)) (by omega)

theorem lcsRowAux_pos_bound (c : Char) :
    ∀ (ys : List Char) (left j0 : Nat) (prev : List Nat),
      left ≤ j0 → (∀ i, prev.getD i 0 ≤ j0 + i) →
      ∀ i, (lcsRowAux c ys left prev).getD i 0 ≤ j0 + 1 + i := by
  intro ys
  induction ys with
  | nil =>
    intro left j0 prev _ _ i
    simp [lcsRowAux]
  | cons y ys ih =>
    intro left j0 prev hleft hprev i
    match prev with
    | [] => simp [lcsRowAux]
    | diag :: rest =>
      have hdiag : diag ≤ j0 := by simpa using hprev 0
      have hup : rest.headD 0 ≤ j0 + 1 := by
        have := hprev 1
        cases rest with
        | nil => simp
        | cons r rs => simpa using this
      have hval : (if c == y then diag + 1 else max (rest.headD 0) left) ≤ j0 + 1 := by
        split
        · omega
        · exact max_le hup (by omega)
      simp only [lcsRowAux]
      match i with
      | 0 => simpa using hval
      | i + 1 =>
        have hrest : ∀ k, rest.getD k 0 ≤ (j0 + 1) + k := by
          intro k
          have := hprev (k + 1)
          simp only [List.getD_cons_succ] at this
          omega
        have := ih _ (j0 + 1) rest hval hrest i
        simp only [List.getD_cons_succ]
        omega

theorem lcsRowAux_length_le (c : Char) :
    ∀ (ys : List Char) (left : Nat) (prev : List Nat),
      (lcsRowAux c ys left prev).length ≤ ys.length := by
  intro ys
  induction ys with
  | nil => intro left prev; simp [lcsRowAux]
  | cons y ys ih =>
    intro left prev
    match prev with
    | [] => simp [lcsRowAux]
    | diag :: rest =>
      simp only [lcsRowAux, List.length_cons]
      exact Nat.succ_le_succ (ih _ rest)

theorem getLastD_pos_bound :
    ∀ (r : List Nat) (k : Nat), (∀ i, r.getD i 0 ≤ k + i) →
      r.getLastD 0 ≤ k + (r.length - 1)
  | [], k, _ => by simp
  | [a], k, h => by simpa using h 0
  | a :: b :: t, k, h => by
    have htail := getLastD_pos_bound (b :: t) (k + 1) (by
      intro i
      have := h (i + 1)
      simp only [List.getD_cons_succ] at this
      omega)
    have heq : (a :: b :: t).getLastD 0 = (b :: t).getLastD 0 := by
      simp [List.getLastD_eq_getLast?, List.getLast?_cons_cons]
    simp only [heq, List.length_cons] at *
    omega

theorem lcsLen_le_right (xs ys : List Char) : lcsLen xs ys ≤ ys.length := by
  unfold lcsLen
  have inv : ∀ (l : List Char) (prev : List Nat),
      (∀ i, prev.getD i 0 ≤ i) → prev.length ≤ ys.length + 1 →
      (∀ i, (l.foldl (fun prev c => lcsNextRow c ys prev) prev).getD i 0 ≤ i) ∧
      (l.foldl (fun prev c => lcsNextRow c ys prev) prev).length ≤ ys.length + 1 := by
    intro l
    induction l with
    | nil => intro prev h1 h2; exact ⟨h1, h2⟩
    | cons c cs ih =>
      intro prev h1 h2
      simp only [List.foldl_cons]
      refine ih (lcsNextRow c ys prev) ?_ ?_
      · intro i
        match i with
        | 0 => simp [lcsNextRow]
        | i + 1 =>
          have := lcsRowAux_pos_bound c ys 0 0 prev (by omega) (by simpa using h1) i
          simpa [lcsNextRow] using (by omega : (lcsRowAux c ys 0 prev).getD i 0 ≤ i + 1)
      · have := lcsRowAux_length_le c ys 0 prev
        simp only [lcsNextRow, List.length_cons]
        omega
  have h := inv xs (List.replicate (ys.length + 1) 0)
    (by intro i; simp [getD_replicate_zero])
    (by simp)
  have hb := getLastD_pos_bound
    (xs.foldl (fun prev c => lcsNextRow c ys prev) (List.replicate (ys.length + 1) 0)) 0
    (by intro i; simpa using h.1 i)
  have := h.2
  omega

theorem indelScore_le_100 (xs ys : List Char) : indelScore xs ys ≤ 100 := by
  unfold indelScore
  split
  · exact le_refl _
  · rename_i h
    have h1 := lcsLen_le_left xs ys
    have h2 := lcsLen_le_right xs ys
    rw [Rat.mkRat_eq_div]
    push_cast
    have hpos : (0 : ℚ) < (xs.length : ℚ) + (ys.length : ℚ) := by
      have : 0 < xs.length + ys.length := Nat.pos_of_ne_zero h
      exact_mod_cast this
    rw [div_le_iff₀ hpos]
    have ha : (lcsLen xs ys : ℚ) ≤ (xs.length : ℚ) := by exact_mod_cast h1
    have hb : (lcsLen xs ys : ℚ) ≤ (ys.length : ℚ) := by exact_mod_cast h2
    linarith

theorem indelScore_nonneg (xs ys : List Char) : 0 ≤ indelScore xs ys := by
  unfold indelScore
  split
  · norm_num
  · rename_i h
    rw [Rat.mkRat_eq_div]
    push_cast
    have hpos : (0 : ℚ) < (xs.length : ℚ) + (ys.length : ℚ) := by
      have : 0 < xs.length + ys.length := Nat.pos_of_ne_zero h
      exact_mod_cast this
    positivity

theorem tokenSortScore_le_100 (s1 s2 : String) : tokenSortScore s1 s2 ≤ 100 :=
  indelScore_le_100 _ _

/-! ## rapidfuzz process.extractOne -/

/-- One scan step of `rapidfuzz.process.extractOne`: keep the strictly best
score seen so far, so the first choice attaining the maximum wins ties. -/
def extractStep (query : String) (best : Option (String × ℚ)) (choice : String) :
    Option (String × ℚ) :=
  let sc := tokenSortScore query choice
  match best with
  | none => some (choice, sc)
  | some (_, bs) => if sc > bs then some (choice, sc) else best

/-- Embedding of `rapidfuzz.process.extractOne` with the `token_sort_ratio`
scorer and no score cutoff. -/
def extractOne (query : String) (choices : List String) : Option (String × ℚ) :=
  choices.foldl (extractStep query) none

theorem extractStep_none (query choice : String) :
    extractStep query none choice = some (choice, tokenSortScore query choice) := rfl

theorem extractStep_some (query choice w : String) (bs : ℚ) :
    extractStep query (some (w, bs)) choice =
      if tokenSortScore query choice > bs then some (choice, tokenSortScore query choice)
      else some (w, bs) := rfl

theorem extractOne_go_spec (query : String) :
    ∀ (choices : List String) (acc : Option (String × ℚ)) (v : String) (sc : ℚ),
      choices.foldl (extractStep query) acc = some (v, sc) →
      acc = some (v, sc) ∨ (v ∈ choices ∧ sc = tokenSortScore query v) := by
  intro choices
  induction choices with
  | nil => intro acc v sc h; exact Or.inl h
  | cons c cs ih =>
    intro acc v sc h
    simp only [List.foldl_cons] at h
    rcases ih _ v sc h with h1 | h1
    · match acc with
      | none =>
        rw [extractStep_none] at h1
        obtain ⟨rfl, rfl⟩ : c = v ∧ tokenSortScore query c = sc :=
          ⟨congrArg Prod.fst (Option.some.inj h1), congrArg Prod.snd (Option.some.inj h1)⟩
        exact Or.inr ⟨by simp, rfl⟩
      | some (w, bs) =>
        rw [extractStep_some] at h1
        by_cases hgt : tokenSortScore query c > bs
        · rw [if_pos hgt] at h1
          obtain ⟨rfl, rfl⟩ : c = v ∧ tokenSortScore query c = sc :=
            ⟨congrArg Prod.fst (Option.some.inj h1), congrArg Prod.snd (Option.some.inj h1)⟩
          exact Or.inr ⟨by simp, rfl⟩
        · rw [if_neg hgt] at h1
          exact Or.inl h1
    · exact Or.inr ⟨List.mem_cons_of_mem _ h1.1, h1.2⟩

/-- The pair returned by `extractOne` is a choice together with its own
token-sort score. -/
theorem extractOne_spec {query : String} {choices : List String} {v : String} {sc : ℚ}
    (h : extractOne query choices = some (v, sc)) :
    v ∈ choices ∧ sc = tokenSortScore query v := by
  rcases extractOne_go_spec query choices none v sc h with h1 | h1
  · simp at h1
  · exact h1

theorem extractOne_go_mono (query : String) :
    ∀ (choices : List String) (w : String) (bs : ℚ),
      ∃ w' bs', choices.foldl (extractStep query) (some (w, bs)) = some (w', bs') ∧
        bs ≤ bs' := by
  intro choices
  induction choices with
  | nil => intro w bs; exact ⟨w, bs, rfl, le_refl _⟩
  | cons c cs ih =>
    intro w bs
    simp only [List.foldl_cons, extractStep_some]
    by_cases hgt : tokenSortScore query c > bs
    · rw [if_pos hgt]
      obtain ⟨w', bs', hfold, hle⟩ := ih c (tokenSortScore query c)
      exact ⟨w', bs', hfold, le_trans (le_of_lt hgt) hle⟩
    · rw [if_neg hgt]
      exact ih w bs

theorem extractOne_go_ge (query : String) :
    ∀ (choices : List String) (acc : Option (String × ℚ)) (v : String), v ∈ choices →
      ∃ w bs, choices.foldl (extractStep query) acc = some (w, bs) ∧
        tokenSortScore query v ≤ bs := by
  intro choices
  induction choices with
  | nil => intro acc v hv; simp at hv
  | cons c cs ih =>
    intro acc v hv
    simp only [List.foldl_cons]
    rcases List.mem_cons.mp hv with hvc | hvcs
    · subst hvc
      have hstep : ∃ w0 b0, extractStep query acc v = some (w0, b0) ∧
          tokenSortScore query v ≤ b0 := by
        match acc with
        | none => exact ⟨v, tokenSortScore query v, rfl, le_refl _⟩
        | some (w, bs) =>
          rw [extractStep_some]
          by_cases hgt : tokenSortScore query v > bs
          · exact ⟨v, tokenSortScore query v, by rw [if_pos hgt], le_refl _⟩
          · exact ⟨w, bs, by rw [if_neg hgt], le_of_not_lt hgt⟩
      obtain ⟨w0, b0, hacc, hle⟩ := hstep
      rw [hacc]
      obtain ⟨w', bs', hfold, hle'⟩ := extractOne_go_mono query cs w0 b0
      exact ⟨w', bs', hfold, le_trans hle hle'⟩
    · exact ih _ v hvcs

/-- The score returned by `extractOne` dominates the score of every choice:
it really is the best fuzzy score over the choice list. -/
theorem extractOne_ge {query : String} {choices : List String} {v : String}
    (hv : v ∈ choices) :
    ∃ w bs, extractOne query choices = some (w, bs) ∧ tokenSortScore query v ≤ bs :=
  extractOne_go_ge query choices none v hv

/-! ## Association lists as CPython dicts -/

/-- Lookup in an insertion-ordered association list (Python dict access). -/
def findAssoc {α : Type} (m : List (String × α)) (k : String) : Option α :=
  (m.find? (fun p => p.1 == k)).map Prod.snd

/-- Key-membership test (Python dict `in`). -/
def hasKey {α : Type} (m : List (String × α)) (k : String) : Bool :=
  m.any (fun p => p.1 == k)

/-- Dict write `m[k] = v` with CPython semantics: an existing key keeps its
position in the iteration order and only its value is replaced; a new key is
appended at the end. -/
def dictInsert {α : Type} (m : List (String × α)) (k : String) (v : α) :
    List (String × α) :=
  if hasKey m k then m.map (fun p => if p.1 == k then (k, v) else p)
  else m ++ [(k, v)]

theorem findAssoc_map_update {α : Type} (k : String) (v : α) :
    ∀ (m : List (String × α)), hasKey m k = true →
      findAssoc (m.map (fun p => if p.1 == k then (k, v) else p)) k = some v := by
  intro m
  induction m with
  | nil => intro h; simp [hasKey] at h
  | cons p ps ih =>
    intro h
    rw [List.map_cons]
    by_cases hp : (p.1 == k) = true
    · have hhead : (if p.1 == k then (k, v) else p) = (k, v) := by rw [if_pos hp]
      rw [hhead]
      unfold findAssoc
      rw [List.find?_cons]
      have hk : (((k, v) : String × α).1 == k) = true := by simp
      rw [hk]
      rfl
    · have hp' : (p.1 == k) = false := by simpa using hp
      have hhead : (if p.1 == k then (k, v) else p) = p := by rw [if_neg hp]
      rw [hhead]
      have hps : hasKey ps k = true := by
        unfold hasKey at h ⊢
        rw [List.any_cons, hp', Bool.false_or] at h
        exact h
      have hrec := ih hps
      unfold findAssoc at hrec ⊢
      rw [List.find?_cons, hp']
      exact hrec

theorem findAssoc_append_of_not_hasKey {α : Type} {m : List (String × α)} {k : String}
    (h : hasKey m k = false) (v : α) : findAssoc (m ++ [(k, v)]) k = some v := by
  induction m with
  | nil =>
    unfold findAssoc
    rw [List.nil_append, List.find?_cons]
    have hk : (((k, v) : String × α).1 == k) = true := by simp
    rw [hk]
    rfl
  | cons p ps ih =>
    unfold hasKey at h
    rw [List.any_cons, Bool.or_eq_false_iff] at h
    have hrec := ih h.2
    unfold findAssoc at hrec ⊢
    rw [List.cons_append, List.find?_cons, h.1]
    exact hrec

/-- Looking up the key just written returns the value just written. -/
theorem findAssoc_dictInsert_self {α : Type} (m : List (String × α)) (k : String) (v : α) :
    findAssoc (dictInsert m k v) k = some v := by
  unfold dictInsert
  by_cases h : hasKey m k = true
  · rw [if_pos h]; exact findAssoc_map_update k v m h
  · rw [if_neg h]
    exact findAssoc_append_of_not_hasKey (by simpa using h) v

/-! ## Knowledge base (src/knowledge_base.py) -/

/-- Record of one organization in `ORGANIZATION_KB`, with the fields of the
Python dict entries (`parent` is optional, `aliases` defaults to the empty
list as in `data.get("aliases", [])`). -/
structure OrgRecord where
  canonical : String
  variants : List String
  country : String
  country_code : String
  otype : String
  parent : Option String
  aliases : List String
deriving DecidableEq

/-- Lowering of a whole string (Python `str.lower`). -/
def pyLowerS (s : String) : String := ⟨pyLower s.data⟩

/-- Strip of a whole string (Python `str.strip()`). -/
def pyStripS (s : String) : String := ⟨pyStrip s.data⟩

/-- Containment test `a in b` on Python strings: `a` occurs in `b` as a
contiguous substring (the empty string occurs in every string). -/
def isSubstr (a b : String) : Bool :=
  b.data.tails.any (fun t => a.data.isPrefixOf t)

/-- Embedding of the static table `ORGANIZATION_KB` of
`src/knowledge_base.py`, in source order. -/
def ORGANIZATION_KB : List (String × OrgRecord) := [
  ("google", ⟨"Google",
    ["Google Research", "Google Brain", "Google AI", "Google Inc.", "Google LLC", "Google DeepMind"],
    "United States", "US", "company", some "Alphabet Inc.", ["GOOG"]⟩),
  ("deepmind", ⟨"DeepMind",
    ["DeepMind Technologies", "DeepMind Technologies Limited", "Google DeepMind"],
    "United Kingdom", "GB", "company", some "Alphabet Inc.", []⟩),
  ("meta", ⟨"Meta",
    ["Meta AI", "Meta Platforms", "Meta Platforms, Inc.", "Facebook", "Facebook AI Research", "Facebook AI", "FAIR"],
    "United States", "US", "company", none, ["META"]⟩),
  ("microsoft", ⟨"Microsoft",
    ["Microsoft Research", "Microsoft Research Asia", "Microsoft Research Lab", "MSR", "Microsoft Corporation"],
    "United States", "US", "company", none, ["MSFT"]⟩),
  ("openai", ⟨"OpenAI",
    ["OpenAI LP", "OpenAI Inc."],
    "United States", "US", "company", none, []⟩),
  ("anthropic", ⟨"Anthropic",
    ["Anthropic PBC"],
    "United States", "US", "company", none, []⟩),
  ("nvidia", ⟨"NVIDIA",
    ["NVIDIA Corporation", "NVIDIA Research"],
    "United States", "US", "company", none, ["NVDA"]⟩),
  ("amazon", ⟨"Amazon",
    ["Amazon Web Services", "AWS", "Amazon Science", "Amazon Research", "Amazon.com"],
    "United States", "US", "company", none, ["AMZN"]⟩),
  ("apple", ⟨"Apple",
    ["Apple Inc.", "Apple Machine Learning Research"],
    "United States", "US", "company", none, ["AAPL"]⟩),
  ("ibm", ⟨"IBM",
    ["IBM Research", "IBM Corporation", "International Business Machines"],
    "United States", "US", "company", none, []⟩),
  ("tencent", ⟨"Tencent",
    ["Tencent AI Lab", "Tencent Holdings"],
    "China", "CN", "company", none, []⟩),
  ("alibaba", ⟨"Alibaba",
    ["Alibaba Group", "Alibaba DAMO Academy", "DAMO Academy"],
    "China", "CN", "company", none, ["BABA"]⟩),
  ("baidu", ⟨"Baidu",
    ["Baidu Research", "Baidu Inc."],
    "China", "CN", "company", none, []⟩),
  ("bytedance", ⟨"ByteDance",
    ["ByteDance AI Lab", "TikTok"],
    "China", "CN", "company", none, []⟩),
  ("huawei", ⟨"Huawei",
    ["Huawei Technologies", "Huawei Noah\x27s Ark Lab"],
    "China", "CN", "company", none, []⟩),
  ("samsung", ⟨"Samsung",
    ["Samsung Research", "Samsung Electronics", "Samsung AI Center"],
    "South Korea", "KR", "company", none, []⟩),
  ("stanford", ⟨"Stanford University",
    ["Stanford", "Stanford CS", "Stanford NLP", "Stanford AI Lab"],
    "United States", "US", "university", none, []⟩),
  ("mit", ⟨"Massachusetts Institute of Technology",
    ["MIT", "M.I.T.", "MIT CSAIL"],
    "United States", "US", "university", none, ["MIT"]⟩),
  ("berkeley", ⟨"University of California, Berkeley",
    ["UC Berkeley", "UCB", "Berkeley", "Berkeley AI Research", "BAIR"],
    "United States", "US", "university", none, []⟩),
  ("cmu", ⟨"Carnegie Mellon University",
    ["CMU", "Carnegie Mellon"],
    "United States", "US", "university", none, ["CMU"]⟩),
  ("harvard", ⟨"Harvard University",
    ["Harvard"],
    "United States", "US", "university", none, []⟩),
  ("princeton", ⟨"Princeton University",
    ["Princeton"],
    "United States", "US", "university", none, []⟩),
  ("caltech", ⟨"California Institute of Technology",
    ["Caltech", "Cal Tech"],
    "United States", "US", "university", none, ["Caltech"]⟩),
  ("cornell", ⟨"Cornell University",
    ["Cornell", "Cornell Tech"],
    "United States", "US", "university", none, []⟩),
  ("nyu", ⟨"New York University",
    ["NYU", "N.Y.U."],
    "United States", "US", "university", none, ["NYU"]⟩),
  ("ucla", ⟨"University of California, Los Angeles",
    ["UCLA"],
    "United States", "US", "university", none, ["UCLA"]⟩),
  ("uw", ⟨"University of Washington",
    ["UW", "U Washington"],
    "United States", "US", "university", none, []⟩),
  ("uiuc", ⟨"University of Illinois Urbana-Champaign",
    ["UIUC", "University of Illinois", "UIUC CS"],
    "United States", "US", "university", none, ["UIUC"]⟩),
  ("gatech", ⟨"Georgia Institute of Technology",
    ["Georgia Tech", "GaTech"],
    "United States", "US", "university", none, []⟩),
  ("oxford", ⟨"University of Oxford",
    ["Oxford", "Oxford University"],
    "United Kingdom", "GB", "university", none, []⟩),
  ("cambridge", ⟨"University of Cambridge",
    ["Cambridge", "Cambridge University"],
    "United Kingdom", "GB", "university", none, []⟩),
  ("imperial", ⟨"Imperial College London",
    ["Imperial", "Imperial College"],
    "United Kingdom", "GB", "university", none, []⟩),
  ("ucl", ⟨"University College London",
    ["UCL"],
    "United Kingdom", "GB", "university", none, ["UCL"]⟩),
  ("edinburgh", ⟨"University of Edinburgh",
    ["Edinburgh"],
    "United Kingdom", "GB", "university", none, []⟩),
  ("tsinghua", ⟨"Tsinghua University",
    ["Tsinghua", "THU"],
    "China", "CN", "university", none, []⟩),
  ("peking", ⟨"Peking University",
    ["Peking", "PKU", "Beijing University"],
    "China", "CN", "university", none, ["PKU"]⟩),
  ("zju", ⟨"Zhejiang University",
    ["Zhejiang", "ZJU"],
    "China", "CN", "university", none, ["ZJU"]⟩),
  ("sjtu", ⟨"Shanghai Jiao Tong University",
    ["SJTU", "Shanghai Jiao Tong"],
    "China", "CN", "university", none, ["SJTU"]⟩),
  ("fudan", ⟨"Fudan University",
    ["Fudan"],
    "China", "CN", "university", none, []⟩),
  ("cuhk", ⟨"The Chinese University of Hong Kong",
    ["CUHK", "Chinese University of Hong Kong"],
    "Hong Kong", "HK", "university", none, ["CUHK"]⟩),
  ("hku", ⟨"The University of Hong Kong",
    ["HKU", "University of Hong Kong"],
    "Hong Kong", "HK", "university", none, ["HKU"]⟩),
  ("toronto", ⟨"University of Toronto",
    ["Toronto", "U of T", "UofT"],
    "Canada", "CA", "university", none, []⟩),
  ("mila", ⟨"Mila - Quebec AI Institute",
    ["Mila", "MILA"],
    "Canada", "CA", "research_institute", none, []⟩),
  ("mcgill", ⟨"McGill University",
    ["McGill"],
    "Canada", "CA", "university", none, []⟩),
  ("waterloo", ⟨"University of Waterloo",
    ["Waterloo", "UWaterloo"],
    "Canada", "CA", "university", none, []⟩),
  ("ethz", ⟨"ETH Zurich",
    ["ETH", "ETHZ", "ETH Zürich"],
    "Switzerland", "CH", "university", none, ["ETH"]⟩),
  ("epfl", ⟨"EPFL",
    ["École Polytechnique Fédérale de Lausanne"],
    "Switzerland", "CH", "university", none, ["EPFL"]⟩),
  ("mpii", ⟨"Max Planck Institute for Informatics",
    ["MPI", "Max Planck", "MPI Informatics"],
    "Germany", "DE", "research_institute", none, []⟩),
  ("tum", ⟨"Technical University of Munich",
    ["TUM", "TU Munich"],
    "Germany", "DE", "university", none, ["TUM"]⟩),
  ("inria", ⟨"Inria",
    ["INRIA"],
    "France", "FR", "research_institute", none, []⟩),
  ("kaist", ⟨"KAIST",
    ["Korea Advanced Institute of Science and Technology"],
    "South Korea", "KR", "university", none, ["KAIST"]⟩),
  ("snu", ⟨"Seoul National University",
    ["SNU"],
    "South Korea", "KR", "university", none, ["SNU"]⟩),
  ("tokyo", ⟨"The University of Tokyo",
    ["University of Tokyo", "UTokyo"],
    "Japan", "JP", "university", none, []⟩),
  ("nus", ⟨"National University of Singapore",
    ["NUS"],
    "Singapore", "SG", "university", none, ["NUS"]⟩),
  ("ntu_sg", ⟨"Nanyang Technological University",
    ["NTU Singapore", "NTU"],
    "Singapore", "SG", "university", none, []⟩),
  ("mipt", ⟨"Moscow Institute of Physics and Technology",
    ["MIPT", "МФТИ", "Phystech", "Физтех"],
    "Russia", "RU", "university", none, ["MIPT", "МФТИ"]⟩),
  ("hse", ⟨"HSE University",
    ["Higher School of Economics", "HSE", "ВШЭ"],
    "Russia", "RU", "university", none, ["HSE"]⟩),
  ("msu", ⟨"Lomonosov Moscow State University",
    ["MSU", "Moscow State University", "МГУ"],
    "Russia", "RU", "university", none, ["MSU", "МГУ"]⟩),
  ("skoltech", ⟨"Skolkovo Institute of Science and Technology",
    ["Skoltech", "Сколтех"],
    "Russia", "RU", "university", none, ["Skoltech"]⟩),
  ("allen_ai", ⟨"Allen Institute for AI",
    ["AI2", "Allen AI"],
    "United States", "US", "research_institute", none, ["AI2"]⟩)
]

/-- Embedding of `get_all_variants`: the mapping from every lower-cased
spelling (key, canonical name, variants, aliases) to the KB key, built with
dict-update semantics in KB order. -/
def get_all_variants : List (String × String) :=
  ORGANIZATION_KB.foldl (fun result kv =>
    let key := kv.1
    let data := kv.2
    let result := dictInsert result key key
    let result := dictInsert result (pyLowerS data.canonical) key
    let result := data.variants.foldl (fun r v => dictInsert r (pyLowerS v) key) result
    let result := data.aliases.foldl (fun r a => dictInsert r (pyLowerS a) key) result
    result) []

/-- Precomputed lookup table `VARIANT_LOOKUP = get_all_variants()`, spelled
out literally for efficient evaluation; `VARIANT_LOOKUP_eq` certifies it
against the constructing fold. -/
def VARIANT_LOOKUP : List (String × String) := [
  ("google", "google"),
  ("google research", "google"),
  ("google brain", "google"),
  ("google ai", "google"),
  ("google inc.", "google"),
  ("google llc", "google"),
  ("google deepmind", "deepmind"),
  ("goog", "google"),
  ("deepmind", "deepmind"),
  ("deepmind technologies", "deepmind"),
  ("deepmind technologies limited", "deepmind"),
  ("meta", "meta"),
  ("meta ai", "meta"),
  ("meta platforms", "meta"),
  ("meta platforms, inc.", "meta"),
  ("facebook", "meta"),
  ("facebook ai research", "meta"),
  ("facebook ai", "meta"),
  ("fair", "meta"),
  ("microsoft", "microsoft"),
  ("microsoft research", "microsoft"),
  ("microsoft research asia", "microsoft"),
  ("microsoft research lab", "microsoft"),
  ("msr", "microsoft"),
  ("microsoft corporation", "microsoft"),
  ("msft", "microsoft"),
  ("openai", "openai"),
  ("openai lp", "openai"),
  ("openai inc.", "openai"),
  ("anthropic", "anthropic"),
  ("anthropic pbc", "anthropic"),
  ("nvidia", "nvidia"),
  ("nvidia corporation", "nvidia"),
  ("nvidia research", "nvidia"),
  ("nvda", "nvidia"),
  ("amazon", "amazon"),
  ("amazon web services", "amazon"),
  ("aws", "amazon"),
  ("amazon science", "amazon"),
  ("amazon research", "amazon"),
  ("amazon.com", "amazon"),
  ("amzn", "amazon"),
  ("apple", "apple"),
  ("apple inc.", "apple"),
  ("apple machine learning research", "apple"),
  ("aapl", "apple"),
  ("ibm", "ibm"),
  ("ibm research", "ibm"),
  ("ibm corporation", "ibm"),
  ("international business machines", "ibm"),
  ("tencent", "tencent"),
  ("tencent ai lab", "tencent"),
  ("tencent holdings", "tencent"),
  ("alibaba", "alibaba"),
  ("alibaba group", "alibaba"),
  ("alibaba damo academy", "alibaba"),
  ("damo academy", "alibaba"),
  ("baba", "alibaba"),
  ("baidu", "baidu"),
  ("baidu research", "baidu"),
  ("baidu inc.", "baidu"),
  ("bytedance", "bytedance"),
  ("bytedance ai lab", "bytedance"),
  ("tiktok", "bytedance"),
  ("huawei", "huawei"),
  ("huawei technologies", "huawei"),
  ("huawei noah\x27s ark lab", "huawei"),
  ("samsung", "samsung"),
  ("samsung research", "samsung"),
  ("samsung electronics", "samsung"),
  ("samsung ai center", "samsung"),
  ("stanford", "stanford"),
  ("stanford university", "stanford"),
  ("stanford cs", "stanford"),
  ("stanford nlp", "stanford"),
  ("stanford ai lab", "stanford"),
  ("mit", "mit"),
  ("massachusetts institute of technology", "mit"),
  ("m.i.t.", "mit"),
  ("mit csail", "mit"),
  ("berkeley", "berkeley"),
  ("university of california, berkeley", "berkeley"),
  ("uc berkeley", "berkeley"),
  ("ucb", "berkeley"),
  ("berkeley ai research", "berkeley"),
  ("bair", "berkeley"),
  ("cmu", "cmu"),
  ("carnegie mellon university", "cmu"),
  ("carnegie mellon", "cmu"),
  ("harvard", "harvard"),
  ("harvard university", "harvard"),
  ("princeton", "princeton"),
  ("princeton university", "princeton"),
  ("caltech", "caltech"),
  ("california institute of technology", "caltech"),
  ("cal tech", "caltech"),
  ("cornell", "cornell"),
  ("cornell university", "cornell"),
  ("cornell tech", "cornell"),
  ("nyu", "nyu"),
  ("new york university", "nyu"),
  ("n.y.u.", "nyu"),
  ("ucla", "ucla"),
  ("university of california, los angeles", "ucla"),
  ("uw", "uw"),
  ("university of washington", "uw"),
  ("u washington", "uw"),
  ("uiuc", "uiuc"),
  ("university of illinois urbana-champaign", "uiuc"),
  ("university of illinois", "uiuc"),
  ("uiuc cs", "uiuc"),
  ("gatech", "gatech"),
  ("georgia institute of technology", "gatech"),
  ("georgia tech", "gatech"),
  ("oxford", "oxford"),
  ("university of oxford", "oxford"),
  ("oxford university", "oxford"),
  ("cambridge", "cambridge"),
  ("university of cambridge", "cambridge"),
  ("cambridge university", "cambridge"),
  ("imperial", "imperial"),
  ("imperial college london", "imperial"),
  ("imperial college", "imperial"),
  ("ucl", "ucl"),
  ("university college london", "ucl"),
  ("edinburgh", "edinburgh"),
  ("university of edinburgh", "edinburgh"),
  ("tsinghua", "tsinghua"),
  ("tsinghua university", "tsinghua"),
  ("thu", "tsinghua"),
  ("peking", "peking"),
  ("peking university", "peking"),
  ("pku", "peking"),
  ("beijing university", "peking"),
  ("zju", "zju"),
  ("zhejiang university", "zju"),
  ("zhejiang", "zju"),
  ("sjtu", "sjtu"),
  ("shanghai jiao tong university", "sjtu"),
  ("shanghai jiao tong", "sjtu"),
  ("fudan", "fudan"),
  ("fudan university", "fudan"),
  ("cuhk", "cuhk"),
  ("the chinese university of hong kong", "cuhk"),
  ("chinese university of hong kong", "cuhk"),
  ("hku", "hku"),
  ("the university of hong kong", "hku"),
  ("university of hong kong", "hku"),
  ("toronto", "toronto"),
  ("university of toronto", "toronto"),
  ("u of t", "toronto"),
  ("uoft", "toronto"),
  ("mila", "mila"),
  ("mila - quebec ai institute", "mila"),
  ("mcgill", "mcgill"),
  ("mcgill university", "mcgill"),
  ("waterloo", "waterloo"),
  ("university of waterloo", "waterloo"),
  ("uwaterloo", "waterloo"),
  ("ethz", "ethz"),
  ("eth zurich", "ethz"),
  ("eth", "ethz"),
  ("eth zürich", "ethz"),
  ("epfl", "epfl"),
  ("école polytechnique fédérale de lausanne", "epfl"),
  ("mpii", "mpii"),
  ("max planck institute for informatics", "mpii"),
  ("mpi", "mpii"),
  ("max planck", "mpii"),
  ("mpi informatics", "mpii"),
  ("tum", "tum"),
  ("technical university of munich", "tum"),
  ("tu munich", "tum"),
  ("inria", "inria"),
  ("kaist", "kaist"),
  ("korea advanced institute of science and technology", "kaist"),
  ("snu", "snu"),
  ("seoul national university", "snu"),
  ("tokyo", "tokyo"),
  ("the university of tokyo", "tokyo"),
  ("university of tokyo", "tokyo"),
  ("utokyo", "tokyo"),
  ("nus", "nus"),
  ("national university of singapore", "nus"),
  ("ntu_sg", "ntu_sg"),
  ("nanyang technological university", "ntu_sg"),
  ("ntu singapore", "ntu_sg"),
  ("ntu", "ntu_sg"),
  ("mipt", "mipt"),
  ("moscow institute of physics and technology", "mipt"),
  ("мфти", "mipt"),
  ("phystech", "mipt"),
  ("физтех", "mipt"),
  ("hse", "hse"),
  ("hse university", "hse"),
  ("higher school of economics", "hse"),
  ("вшэ", "hse"),
  ("msu", "msu"),
  ("lomonosov moscow state university", "msu"),
  ("moscow state university", "msu"),
  ("мгу", "msu"),
  ("skoltech", "skoltech"),
  ("skolkovo institute of science and technology", "skoltech"),
  ("сколтех", "skoltech"),
  ("allen_ai", "allen_ai"),
  ("allen institute for ai", "allen_ai"),
  ("ai2", "allen_ai"),
  ("allen ai", "allen_ai")]

set_option maxRecDepth 40000 in
/-- Certification that the literal table equals the constructing fold of
`get_all_variants`. -/
theorem VARIANT_LOOKUP_eq : VARIANT_LOOKUP = get_all_variants := by decide

/-- Core of `lookup_organization` on the already lower-cased and stripped
text: exact dict lookup first, then the substring-containment scan over the
variant index in dict order, returning the record of the first match. -/
def lookupNormalized (text_lower : String) : Option OrgRecord :=
  match findAssoc VARIANT_LOOKUP text_lower with
  | some key => findAssoc ORGANIZATION_KB key
  | none =>
    match VARIANT_LOOKUP.find? (fun p => isSubstr p.1 text_lower || isSubstr text_lower p.1) with
    | some vk => findAssoc ORGANIZATION_KB vk.2
    | none => none

/-- Embedding of `lookup_organization` of `src/knowledge_base.py`. -/
def lookup_organization (text : String) : Option OrgRecord :=
  lookupNormalized (pyStripS (pyLowerS text))


/-! ## Organization normalizer (src/normalizer.py, src/models.py) -/

/-- Enum `OrganizationType` of `src/models.py`. -/
inductive OrganizationType where
  | university
  | company
  | research_institute
  | government
  | hospital
  | nonprofit
  | unknown
deriving DecidableEq

/-- String value of an `OrganizationType` member (its `.value`). -/
def OrganizationType.value : OrganizationType → String
  | .university => "university"
  | .company => "company"
  | .research_institute => "research_institute"
  | .government => "government"
  | .hospital => "hospital"
  | .nonprofit => "nonprofit"
  | .unknown => "unknown"

/-- Conversion `OrganizationType(s)`: `none` models the `ValueError` raised
on an unknown member value (every `type` string in the KB is a valid member,
so the cascade never hits that case). -/
def orgTypeOfString (s : String) : Option OrganizationType :=
  if s == "university" then some .university
  else if s == "company" then some .company
  else if s == "research_institute" then some .research_institute
  else if s == "government" then some .government
  else if s == "hospital" then some .hospital
  else if s == "nonprofit" then some .nonprofit
  else if s == "unknown" then some .unknown
  else none

/-- Record `NormalizationResult` of `src/models.py`. Confidences are the
exact rationals behind the float literals of the source (`0.95 = mkRat 19
20`, `0.3 = mkRat 3 10`). -/
structure NormalizationResult where
  original : String
  normalized : String
  country : String
  country_code : String
  org_type : OrganizationType
  confidence : ℚ
  source : String
deriving DecidableEq

/-- State of an `OrganizationNormalizer` instance: the fuzzy threshold and
LLM toggle given at construction, the LLM fallback abstracted as a fixed
oracle function (`_llm_normalize` performs an external network call; `none`
models both a disabled LLM and a failed call), and the result cache. -/
structure Normalizer where
  fuzzy_threshold : ℚ
  use_llm_fallback : Bool
  llm : String → Option NormalizationResult
  cache : List (String × NormalizationResult)

/-- The list `self._all_variants = list(VARIANT_LOOKUP.keys())`. -/
def all_variants : List String := VARIANT_LOOKUP.map Prod.fst

/-- Embedding of `OrganizationNormalizer._fuzzy_match`: best token-sort
match over all variants, accepted when the score reaches the threshold;
confidence is `score / 100 * 0.9`. -/
def normalizer_fuzzy_match (n : Normalizer) (raw : String) : Option NormalizationResult :=
  let raw_lower := pyStripS (pyLowerS raw)
  match extractOne raw_lower all_variants with
  | some (matched_variant, score) =>
    if n.fuzzy_threshold ≤ score then
      match findAssoc VARIANT_LOOKUP matched_variant with
      | some kb_key =>
        match findAssoc ORGANIZATION_KB kb_key with
        | some kb_data =>
          some { original := raw
                 normalized := kb_data.canonical
                 country := kb_data.country
                 country_code := kb_data.country_code
                 org_type := (orgTypeOfString kb_data.otype).getD .unknown
                 confidence := score / 100 * (9 / 10)
                 source := "fuzzy" }
        | none => none
      | none => none
    else none
  | none => none

/-- Embedding of `OrganizationNormalizer._normalize_internal`: the cascade
KB lookup → fuzzy match → LLM fallback → unresolved default. -/
def normalize_internal (n : Normalizer) (raw : String) : NormalizationResult :=
  match lookup_organization raw with
  | some kb_result =>
    { original := raw
      normalized := kb_result.canonical
      country := kb_result.country
      country_code := kb_result.country_code
      org_type := (orgTypeOfString kb_result.otype).getD .unknown
      confidence := mkRat 19 20
      source := "kb" }
  | none =>
    match normalizer_fuzzy_match n raw with
    | some fuzzy_result => fuzzy_result
    | none =>
      match (if n.use_llm_fallback then n.llm raw else none) with
      | some llm_result => llm_result
      | none =>
        { original := raw
          normalized := raw
          country := "Unknown"
          country_code := "XX"
          org_type := .unknown
          confidence := mkRat 3 10
          source := "none" }

/-- Outcome of one `normalize` call: the returned result, the instance
state afterwards, and whether the call was answered from the cache (true
exactly when the early `return self._cache[cache_key]` fired, i.e. the
cascade was not run). -/
structure NormalizeOutcome where
  result : NormalizationResult
  state : Normalizer
  from_cache : Bool

/-- Embedding of `OrganizationNormalizer.normalize`: cache check keyed by
the lower-cased stripped input, then the cascade, then a cache write (the
bare name `normalize` is taken by Mathlib, hence the namespace). -/
def Normalizer.normalize (n : Normalizer) (raw_affiliation : String) : NormalizeOutcome :=
  let cache_key := pyStripS (pyLowerS raw_affiliation)
  match findAssoc n.cache cache_key with
  | some cached => ⟨cached, n, true⟩
  | none =>
    let result := normalize_internal n raw_affiliation
    ⟨result, { n with cache := dictInsert n.cache cache_key result }, false⟩

/-! ## Evaluation engine (src/evaluation.py) -/

/-- Enum `ProcessingStatus` of `src/models.py` (only `completed` is ever
inspected by the evaluation engine). -/
inductive ProcessingStatus where
  | pending
  | searching
  | downloading
  | downloaded
  | parsing
  | parsed
  | extracting
  | extracted
  | normalizing
  | completed
  | failed
deriving DecidableEq

/-- String value of a `ProcessingStatus` member. -/
def ProcessingStatus.value : ProcessingStatus → String
  | .pending => "pending"
  | .searching => "searching"
  | .downloading => "downloading"
  | .downloaded => "downloaded"
  | .parsing => "parsing"
  | .parsed => "parsed"
  | .extracting => "extracting"
  | .extracted => "extracted"
  | .normalizing => "normalizing"
  | .completed => "completed"
  | .failed => "failed"

/-- Model `AuthorAffiliation` of `src/models.py` restricted to the fields
the evaluation engine reads (`email` and `confidence` are carried along for
completeness; the remaining metadata fields are never read by the code
under verification). -/
structure AuthorAffiliation where
  name : String
  raw_affiliation : String := ""
  normalized_affiliation : Option String := none
  country : Option String := none
  country_code : Option String := none
  org_type : OrganizationType := .unknown
  email : Option String := none
  confidence : ℚ := 1
deriving DecidableEq

/-- Model `PaperMetadata` of `src/models.py` restricted to the fields the
evaluation engine reads. -/
structure PaperMetadata where
  arxiv_id : String
  title : String := ""
  authors : List AuthorAffiliation := []
  processing_status : ProcessingStatus := .pending
deriving DecidableEq

/-- Record `GoldAuthor` of `src/evaluation.py` (all fields plain strings). -/
structure GoldAuthor where
  name : String
  raw_affiliation : String
  normalized_affiliation : String
  country : String
  country_code : String
  org_type : String
deriving DecidableEq

/-- Record `GoldPaper` of `src/evaluation.py`. -/
structure GoldPaper where
  paper_id : String
  title : String
  authors : List GoldAuthor
  source : String := "manual"
  annotator : String := ""
  annotation_date : String := ""
  notes : String := ""
deriving DecidableEq

/-- Embedding of `EvaluationEngine._fuzzy_match`: empty operands never
match; otherwise token-sort score of the lower-cased stripped strings
against the engine threshold. -/
def engine_fuzzy_match (thr : ℚ) (s1 s2 : String) : Bool :=
  if s1 == "" || s2 == "" then false
  else decide (thr ≤ tokenSortScore (pyStripS (pyLowerS s1)) (pyStripS (pyLowerS s2)))

/-- Embedding of `EvaluationEngine._exact_match_normalized`. -/
def exact_match_normalized (s1 s2 : String) : Bool :=
  if s1 == "" || s2 == "" then false
  else pyStripS (pyLowerS s1) == pyStripS (pyLowerS s2)

/-- Python truthiness of an optional string (None and the empty string are
falsy). -/
def optTruthy (o : Option String) : Bool := !(o.getD "" == "")

/-- The aggregate counters accumulated by `evaluate_extraction` before the
final metric computation. -/
structure ExtractionCounts where
  author_tp : Nat := 0
  author_fp : Nat := 0
  author_fn : Nat := 0
  aff_tp : Nat := 0
  aff_fp : Nat := 0
  aff_fn : Nat := 0
  org_correct : Nat := 0
  country_correct : Nat := 0
  org_type_correct : Nat := 0
  hierarchical_correct : Nat := 0
  total_matched : Nat := 0
deriving DecidableEq

/-- First-occurrence deduplication, modelling the Python set comprehensions
`{a.name for a in ...}` (set iteration order is arbitrary in CPython; this
embedding fixes first-occurrence order, which no claim depends on). -/
def dedupFirst (l : List String) : List String :=
  l.foldl (fun acc x => if acc.contains x then acc else acc ++ [x]) []

/-- Affiliation, normalization, country, type and hierarchical tallies for
one predicted author that found a (fuzzy) gold counterpart: the body of the
second loop of `evaluate_extraction` after `total_matched += 1`. -/
def process_matched_author (thr : ℚ) (pred : AuthorAffiliation) (gold_author : GoldAuthor)
    (c : ExtractionCounts) : ExtractionCounts :=
  let pred_has_aff := pred.raw_affiliation != ""
  let gold_has_aff := gold_author.raw_affiliation != ""
  let aff_fuzzy := engine_fuzzy_match thr pred.raw_affiliation gold_author.raw_affiliation
  let org_guard := optTruthy pred.normalized_affiliation && (gold_author.normalized_affiliation != "")
  let org_fuzzy := engine_fuzzy_match thr (pred.normalized_affiliation.getD "")
    gold_author.normalized_affiliation
  let country_guard := optTruthy pred.country && (gold_author.country != "")
  let country_eq := exact_match_normalized (pred.country.getD "") gold_author.country ||
    exact_match_normalized (pred.country_code.getD "") gold_author.country_code
  let pred_type := pred.org_type.value
  let type_guard := (pred_type != "") && (gold_author.org_type != "")
  let org_match := engine_fuzzy_match thr (pred.normalized_affiliation.getD "")
    gold_author.normalized_affiliation
  let country_match := exact_match_normalized (pred.country.getD "") gold_author.country ||
    exact_match_normalized (pred.country_code.getD "") gold_author.country_code
  { c with
    total_matched := c.total_matched + 1
    aff_tp := c.aff_tp + (if pred_has_aff && gold_has_aff && aff_fuzzy then 1 else 0)
    aff_fp := c.aff_fp + (if pred_has_aff && gold_has_aff && !aff_fuzzy then 1 else 0) +
      (if pred_has_aff && !gold_has_aff then 1 else 0)
    aff_fn := c.aff_fn + (if !pred_has_aff && gold_has_aff then 1 else 0)
    org_correct := c.org_correct + (if org_guard && org_fuzzy then 1 else 0)
    country_correct := c.country_correct + (if country_guard && country_eq then 1 else 0)
    org_type_correct := c.org_type_correct +
      (if type_guard && (pred_type == gold_author.org_type) then 1 else 0)
    hierarchical_correct := c.hierarchical_correct +
      (if org_match && country_match then 1 else 0) }

/-- Greedy fuzzy bipartite author matching of `evaluate_extraction`: for
each predicted name (in set order) take the first unconsumed gold name that
fuzzy-matches. State: `(tp, matched_gold, matched_pred)`. -/
def match_authors (thr : ℚ) (pred_authors gold_authors : List String) :
    Nat × List String × List String :=
  pred_authors.foldl (fun st pred_name =>
    match gold_authors.find? (fun gold_name =>
        !(st.2.1.contains gold_name) && engine_fuzzy_match thr pred_name gold_name) with
    | some gold_name => (st.1 + 1, gold_name :: st.2.1, pred_name :: st.2.2)
    | none => st) (0, [], [])

/-- Counter updates contributed by one predicted paper: author matching,
author FP/FN counting, and the affiliation/normalization scoring pass that
looks every predicted author up in `gold_by_name` afresh. -/
def process_paper (thr : ℚ) (gold : List (String × GoldPaper)) (c : ExtractionCounts)
    (pred_paper : PaperMetadata) : ExtractionCounts :=
  match findAssoc gold pred_paper.arxiv_id with
  | none => c
  | some gold_paper =>
    let pred_authors := dedupFirst (pred_paper.authors.map (fun a => a.name))
    let gold_authors := dedupFirst (gold_paper.authors.map (fun a => a.name))
    let mstate := match_authors thr pred_authors gold_authors
    let matched_gold := mstate.2.1
    let matched_pred := mstate.2.2
    let c := { c with
      author_tp := c.author_tp + mstate.1
      author_fp := c.author_fp +
        (pred_authors.filter (fun nm => !(matched_pred.contains nm))).length
      author_fn := c.author_fn +
        (gold_authors.filter (fun nm => !(matched_gold.contains nm))).length }
    let gold_by_name := gold_paper.authors.foldl
      (fun m a => dictInsert m (pyLowerS a.name) a) []
    pred_paper.authors.foldl (fun c2 pred_author =>
      match gold_by_name.find? (fun p => engine_fuzzy_match thr pred_author.name p.1) with
      | some p => process_matched_author thr pred_author p.2 c2
      | none => c2) c

/-- All counters over a prediction list. -/
def extraction_counts (thr : ℚ) (gold : List (String × GoldPaper))
    (predictions : List PaperMetadata) : ExtractionCounts :=
  predictions.foldl (process_paper thr gold) {}

/-- Record `ExtractionMetrics` of `src/evaluation.py`; every field defaults
to zero as in the Python dataclass. -/
structure ExtractionMetrics where
  author_precision : ℚ := 0
  author_recall : ℚ := 0
  author_f1 : ℚ := 0
  affiliation_precision : ℚ := 0
  affiliation_recall : ℚ := 0
  affiliation_f1 : ℚ := 0
  org_normalization_accuracy : ℚ := 0
  country_accuracy : ℚ := 0
  org_type_accuracy : ℚ := 0
  hierarchical_accuracy : ℚ := 0
  author_hallucination_rate : ℚ := 0
  affiliation_hallucination_rate : ℚ := 0
  total_gold_authors : Nat := 0
  total_pred_authors : Nat := 0
  matched_authors : Nat := 0
deriving DecidableEq

/-- Final metric computation of `evaluate_extraction` from the counters:
each guarded division leaves the 0.0 default when its denominator is not
positive, exactly as the `if ... > 0` blocks of the source. -/
def metrics_of_counts (c : ExtractionCounts) (total_gold_authors total_pred_authors : Nat) :
    ExtractionMetrics :=
  let author_precision : ℚ :=
    if c.author_tp + c.author_fp > 0 then mkRat c.author_tp (c.author_tp + c.author_fp) else 0
  let author_recall : ℚ :=
    if c.author_tp + c.author_fn > 0 then mkRat c.author_tp (c.author_tp + c.author_fn) else 0
  let author_f1 : ℚ :=
    if author_precision + author_recall > 0 then
      2 * author_precision * author_recall / (author_precision + author_recall) else 0
  let affiliation_precision : ℚ :=
    if c.aff_tp + c.aff_fp > 0 then mkRat c.aff_tp (c.aff_tp + c.aff_fp) else 0
  let affiliation_recall : ℚ :=
    if c.aff_tp + c.aff_fn > 0 then mkRat c.aff_tp (c.aff_tp + c.aff_fn) else 0
  let affiliation_f1 : ℚ :=
    if affiliation_precision + affiliation_recall > 0 then
      2 * affiliation_precision * affiliation_recall /
        (affiliation_precision + affiliation_recall) else 0
  { author_precision := author_precision
    author_recall := author_recall
    author_f1 := author_f1
    affiliation_precision := affiliation_precision
    affiliation_recall := affiliation_recall
    affiliation_f1 := affiliation_f1
    org_normalization_accuracy :=
      if c.total_matched > 0 then mkRat c.org_correct c.total_matched else 0
    country_accuracy :=
      if c.total_matched > 0 then mkRat c.country_correct c.total_matched else 0
    org_type_accuracy :=
      if c.total_matched > 0 then mkRat c.org_type_correct c.total_matched else 0
    hierarchical_accuracy :=
      if c.total_matched > 0 then mkRat c.hierarchical_correct c.total_matched else 0
    author_hallucination_rate :=
      if total_pred_authors > 0 then mkRat c.author_fp total_pred_authors else 0
    affiliation_hallucination_rate :=
      if c.aff_tp + c.aff_fp > 0 then mkRat c.aff_fp (c.aff_tp + c.aff_fp) else 0
    total_gold_authors := total_gold_authors
    total_pred_authors := total_pred_authors
    matched_authors := c.author_tp }

/-- Embedding of `EvaluationEngine.evaluate_extraction` over the engine
state (fuzzy threshold and gold dict keyed by paper id). -/
def evaluate_extraction (thr : ℚ) (gold : List (String × GoldPaper))
    (predictions : List PaperMetadata) : ExtractionMetrics :=
  let total_gold_authors :=
    ((gold.map Prod.snd).filter
      (fun p => predictions.any (fun pp => pp.arxiv_id == p.paper_id))).foldl
      (fun acc p => acc + p.authors.length) 0
  let total_pred_authors := predictions.foldl (fun acc p => acc + p.authors.length) 0
  metrics_of_counts (extraction_counts thr gold predictions)
    total_gold_authors total_pred_authors

/-- One agent run-log entry (`log.get("stage", "unknown")`,
`log.get("success", False)` modelled as record fields with those
defaults). -/
structure RunLog where
  stage : String := "unknown"
  success : Bool := false
deriving DecidableEq

/-- Record `AgentMetrics` of `src/evaluation.py` (`errors_by_stage` is the
dict in first-occurrence stage order). -/
structure AgentMetrics where
  tool_success_rate : ℚ := 0
  arxiv_api_success : ℚ := 0
  pdf_download_success : ℚ := 0
  pdf_parse_success : ℚ := 0
  llm_extraction_success : ℚ := 0
  e2e_success_rate : ℚ := 0
  papers_fully_processed : Nat := 0
  papers_partial : Nat := 0
  papers_failed : Nat := 0
  errors_by_stage : List (String × Nat) := []
deriving DecidableEq

/-- Attempt count of a stage (`stage_attempts[stage]`). -/
def stage_attempts (logs : List RunLog) (stage : String) : Nat :=
  (logs.filter (fun l => l.stage == stage)).length

/-- Success count of a stage (`stage_successes[stage]`). -/
def stage_successes (logs : List RunLog) (stage : String) : Nat :=
  (logs.filter (fun l => l.stage == stage && l.success)).length

/-- Embedding of `EvaluationEngine.evaluate_agent`. -/
def evaluate_agent (run_logs : List RunLog) (papers : List PaperMetadata) : AgentMetrics :=
  let rate := fun st =>
    if stage_attempts run_logs st > 0 then
      mkRat (stage_successes run_logs st) (stage_attempts run_logs st) else 0
  let total_attempts := run_logs.length
  let total_successes := (run_logs.filter (fun l => l.success)).length
  let counts := papers.foldl (fun (st : Nat × Nat × Nat) paper =>
    if paper.processing_status.value == "completed" then
      if !paper.authors.isEmpty &&
          paper.authors.any (fun a => optTruthy a.normalized_affiliation) then
        (st.1 + 1, st.2.1, st.2.2)
      else (st.1, st.2.1 + 1, st.2.2)
    else (st.1, st.2.1, st.2.2 + 1)) (0, 0, 0)
  { arxiv_api_success := rate "arxiv_search"
    pdf_download_success := rate "pdf_download"
    pdf_parse_success := rate "pdf_parse"
    llm_extraction_success := rate "llm_extract"
    tool_success_rate :=
      if total_attempts > 0 then mkRat total_successes total_attempts else 0
    papers_fully_processed := counts.1
    papers_partial := counts.2.1
    papers_failed := counts.2.2
    e2e_success_rate := if papers.length > 0 then mkRat counts.1 papers.length else 0
    errors_by_stage := (dedupFirst (run_logs.map (fun l => l.stage))).map
      (fun st => (st, stage_attempts run_logs st - stage_successes run_logs st)) }

/-- Record `EngineeringMetrics` of `src/evaluation.py`. -/
structure EngineeringMetrics where
  total_time_seconds : ℚ := 0
  avg_time_per_paper : ℚ := 0
  time_by_stage : List (String × ℚ) := []
  total_input_tokens : Nat := 0
  total_output_tokens : Nat := 0
  estimated_cost_usd : ℚ := 0
  total_api_calls : Nat := 0
  api_calls_by_source : List (String × Nat) := []
  cache_hit_rate : ℚ := 0
  cached_pdfs : Nat := 0
  downloaded_pdfs : Nat := 0
deriving DecidableEq

/-- Python truthiness of an optional dict argument (None and the empty dict
are falsy). -/
def dictTruthy {α : Type} : Option (List (String × α)) → Bool
  | none => false
  | some l => !l.isEmpty

/-- Embedding of `EvaluationEngine.evaluate_engineering` (`0.15` and `0.60`
per million tokens are written as exact rationals). -/
def evaluate_engineering (start_time end_time : ℚ) (papers_count : Nat)
    (token_usage api_calls cache_stats : Option (List (String × Nat))) :
    EngineeringMetrics :=
  let total_time := end_time - start_time
  let avg := if papers_count > 0 then total_time / (papers_count : ℚ) else 0
  let input_tokens := if dictTruthy token_usage then
    ((token_usage.getD []).find? (fun p => p.1 == "input")).map Prod.snd |>.getD 0 else 0
  let output_tokens := if dictTruthy token_usage then
    ((token_usage.getD []).find? (fun p => p.1 == "output")).map Prod.snd |>.getD 0 else 0
  let cost : ℚ := if dictTruthy token_usage then
    (input_tokens : ℚ) * (15 / 100) / 1000000 + (output_tokens : ℚ) * (60 / 100) / 1000000
    else 0
  let hits := ((cache_stats.getD []).find? (fun p => p.1 == "hits")).map Prod.snd |>.getD 0
  let misses := ((cache_stats.getD []).find? (fun p => p.1 == "misses")).map Prod.snd |>.getD 0
  { total_time_seconds := total_time
    avg_time_per_paper := avg
    total_input_tokens := input_tokens
    total_output_tokens := output_tokens
    estimated_cost_usd := cost
    api_calls_by_source := if dictTruthy api_calls then api_calls.getD [] else []
    total_api_calls := if dictTruthy api_calls then
      (api_calls.getD []).foldl (fun acc p => acc + p.2) 0 else 0
    cache_hit_rate := if dictTruthy cache_stats then
      (if hits + misses > 0 then mkRat hits (hits + misses) else 0) else 0
    cached_pdfs := if dictTruthy cache_stats then hits else 0
    downloaded_pdfs := if dictTruthy cache_stats then misses else 0 }

/-- Record `EvaluationReport` of `src/evaluation.py`. -/
structure EvaluationReport where
  timestamp : String := ""
  extraction : ExtractionMetrics := {}
  agent : AgentMetrics := {}
  engineering : EngineeringMetrics := {}
  overall_quality_score : ℚ := 0
deriving DecidableEq

/-- Python truthiness of an optional float (None and 0.0 are falsy). -/
def floatTruthy : Option ℚ → Bool
  | none => false
  | some x => decide (x ≠ 0)

/-- Python truthiness of an optional list (None and the empty list are
falsy). -/
def listTruthy {α : Type} : Option (List α) → Bool
  | none => false
  | some l => !l.isEmpty

/-- Embedding of `EvaluationEngine.evaluate_full`; `timestamp` abstracts
`datetime.now().isoformat()`. The weights `0.3/0.3/0.4` and
`0.60/0.25/0.15` of the source are the rationals written below. -/
def evaluate_full (thr : ℚ) (gold : List (String × GoldPaper))
    (predictions : List PaperMetadata) (run_logs : Option (List RunLog))
    (start_time end_time : Option ℚ)
    (token_usage api_calls cache_stats : Option (List (String × Nat)))
    (timestamp : String) : EvaluationReport :=
  let extraction := if !gold.isEmpty then evaluate_extraction thr gold predictions else {}
  let agent := if listTruthy run_logs then evaluate_agent (run_logs.getD []) predictions
    else {}
  let engineering := if floatTruthy start_time && floatTruthy end_time then
      evaluate_engineering (start_time.getD 0) (end_time.getD 0) predictions.length
        token_usage api_calls cache_stats
    else {}
  let extraction_score : ℚ := if extraction.author_f1 > 0 then
      extraction.author_f1 * (3 / 10) + extraction.affiliation_f1 * (3 / 10) +
        extraction.hierarchical_accuracy * (4 / 10)
    else 0
  let agent_score := agent.e2e_success_rate
  let baseline_time : ℚ := 60
  let time_score : ℚ := min 1 (baseline_time / max engineering.avg_time_per_paper 1)
  { timestamp := timestamp
    extraction := extraction
    agent := agent
    engineering := engineering
    overall_quality_score :=
      extraction_score * (60 / 100) + agent_score * (25 / 100) + time_score * (15 / 100) }

/-! ## Gold standard dataset save/load (src/evaluation.py) -/

/-- Serialization `dataclasses.asdict` of a `GoldAuthor`. -/
def author_to_dict (a : GoldAuthor) : List (String × String) :=
  [("name", a.name), ("raw_affiliation", a.raw_affiliation),
   ("normalized_affiliation", a.normalized_affiliation), ("country", a.country),
   ("country_code", a.country_code), ("org_type", a.org_type)]

/-- Deserialization `GoldAuthor(**author)`: requires the six fields (a
missing field raises `TypeError` in Python, modelled as `none`). -/
def author_of_dict (d : List (String × String)) : Option GoldAuthor :=
  match findAssoc d "name", findAssoc d "raw_affiliation",
      findAssoc d "normalized_affiliation", findAssoc d "country",
      findAssoc d "country_code", findAssoc d "org_type" with
  | some n, some ra, some na, some co, some cc, some ot =>
    some ⟨n, ra, na, co, cc, ot⟩
  | _, _, _, _, _, _ => none

/-- One serialized paper object of the gold-standard JSON file. -/
structure SavedPaper where
  paper_id : String
  title : String
  authors : List (List (String × String))
  source : String
  annotator : String
  annotation_date : String
  notes : String
deriving DecidableEq

/-- The gold-standard JSON file layout. -/
structure SavedFile where
  version : String
  created : String
  total_papers : Nat
  total_authors : Nat
  papers : List SavedPaper
deriving DecidableEq

/-- Embedding of `GoldStandardDataset.save` on the in-memory dict (keyed by
paper id); `created` abstracts `datetime.now().isoformat()`. -/
def dataset_save (papers : List (String × GoldPaper)) (created : String) : SavedFile :=
  { version := "1.0"
    created := created
    total_papers := papers.length
    total_authors := (papers.map Prod.snd).foldl (fun acc p => acc + p.authors.length) 0
    papers := (papers.map Prod.snd).map (fun p =>
      ⟨p.paper_id, p.title, p.authors.map author_to_dict, p.source, p.annotator,
        p.annotation_date, p.notes⟩) }

/-- Embedding of `GoldStandardDataset.load` into a fresh store: each paper
object is decoded and written at key `paper.paper_id`; a malformed author
dict aborts with `none` (Python raises). -/
def dataset_load (data : SavedFile) : Option (List (String × GoldPaper)) :=
  data.papers.foldl (fun acc pd =>
    match acc with
    | none => none
    | some m =>
      match pd.authors.mapM author_of_dict with
      | none => none
      | some authors =>
        some (dictInsert m pd.paper_id
          ⟨pd.paper_id, pd.title, authors, pd.source, pd.annotator,
            pd.annotation_date, pd.notes⟩)) (some [])

/-! ## ROR registry client (src/data_sources/ror.py) -/

/-- One name object of a ROR API v2 candidate. -/
structure RORName where
  value : String
  types : List String
deriving DecidableEq

/-- The `geonames_details` dict of a ROR location (optional keys with
`.get` defaults `"Unknown"` / `"XX"`). -/
structure RORGeoDetails where
  country_name : Option String
  country_code : Option String
deriving DecidableEq

/-- One location object of a ROR candidate. -/
structure RORLocation where
  geonames_details : RORGeoDetails
deriving DecidableEq

/-- One link object of a ROR candidate. -/
structure RORLink where
  ltype : String
  value : String
deriving DecidableEq

/-- One ROR API v2 candidate record. -/
structure RORItem where
  id : Option String
  names : List RORName
  locations : List RORLocation
  types : List String
  links : List RORLink
deriving DecidableEq

/-- The `TYPE_MAP` of `RORLookup`. -/
def ror_type_map (t : String) : Option OrganizationType :=
  if t == "education" then some .university
  else if t == "company" then some .company
  else if t == "government" then some .government
  else if t == "nonprofit" then some .nonprofit
  else if t == "healthcare" then some .hospital
  else if t == "facility" then some .research_institute
  else if t == "archive" then some .research_institute
  else if t == "other" then some .unknown
  else none

/-- Unified result dict produced by `RORLookup._convert_result`. -/
structure RORResult where
  ror_id : Option String
  name : String
  country : String
  country_code : String
  otype : OrganizationType
  aliases : List String
  links : List String
  wikipedia_url : Option String
  confidence : ℚ
deriving DecidableEq

/-- Embedding of `RORLookup._convert_result`. -/
def convert_result (data : RORItem) (confidence : ℚ) : RORResult :=
  let cc : String × String := match data.locations with
    | [] => ("Unknown", "XX")
    | loc :: _ => (loc.geonames_details.country_name.getD "Unknown",
        loc.geonames_details.country_code.getD "XX")
  let otype := ((data.types.find? (fun t => (ror_type_map (pyLowerS t)).isSome)).bind
    (fun t => ror_type_map (pyLowerS t))).getD .unknown
  let names_scan := data.names.foldl (fun (st : String × List String) name_obj =>
    if name_obj.types.contains "ror_display" then (name_obj.value, st.2)
    else if name_obj.types.contains "alias" || name_obj.types.contains "acronym" then
      (st.1, st.2 ++ [name_obj.value])
    else st) ("", [])
  let links_scan := data.links.foldl (fun (st : List String × Option String) link =>
    if link.ltype == "wikipedia" then (st.1, some link.value)
    else (st.1 ++ [link.value], st.2)) ([], none)
  { ror_id := data.id
    name := names_scan.1
    country := cc.1
    country_code := cc.2
    otype := otype
    aliases := names_scan.2
    links := links_scan.1
    wikipedia_url := links_scan.2
    confidence := confidence }

/-- One candidate-scan step of `RORLookup._search`: fold over the
candidate's non-empty name values keeping the strictly best score. -/
def ror_scan_item (org_name : String) (st : Option RORItem × ℚ) (item : RORItem) :
    Option RORItem × ℚ :=
  let names_to_check := (item.names.map (fun n => n.value)).filter (fun v => v != "")
  names_to_check.foldl (fun st2 name =>
    let score := tokenSortScore (pyLowerS org_name) (pyLowerS name)
    if score > st2.2 then (some item, score) else st2) st

/-- The best-candidate selection of `RORLookup._search` over the top five
returned items. -/
def ror_best (org_name : String) (items : List RORItem) : Option RORItem × ℚ :=
  (items.take 5).foldl (ror_scan_item org_name) (none, 0)

/-- Embedding of `RORLookup._search`; `response = none` models a raised
request exception (caught and turned into `None`), `some items` models
`data.get("items", [])`. -/
def ror_search (org_name : String) (response : Option (List RORItem)) : Option RORResult :=
  match response with
  | none => none
  | some items =>
    if items.isEmpty then none
    else if (ror_best org_name items).2 < 60 then none
    else (ror_best org_name items).1.map
      (fun item => convert_result item ((ror_best org_name items).2 / 100))

/-- Embedding of `RORLookup.get_by_id`; `response = none` models a 404 or a
caught request failure, `some data` a successful fetch. The result always
carries confidence `1.0`. -/
def ror_get_by_id (response : Option RORItem) : Option RORResult :=
  response.map (fun data => convert_result data 1)

/-! ## General helper lemmas for the claims -/

theorem find?_eq_head?_filter {α : Type} (p : α → Bool) :
    ∀ (l : List α), l.find? p = (l.filter p).head? := by
  intro l
  induction l with
  | nil => rfl
  | cons a as ih =>
    by_cases h : p a = true
    · rw [List.find?_cons, h, List.filter_cons, if_pos h]
      rfl
    · have h' : p a = false := by simpa using h
      rw [List.find?_cons, h', List.filter_cons, if_neg (by simp [h'])]
      exact ih

theorem findAssoc_isSome_of_mem_keys {α : Type} {l : List (String × α)} {v : String}
    (hv : v ∈ l.map Prod.fst) : ∃ w, findAssoc l v = some w := by
  induction l with
  | nil => simp at hv
  | cons p ps ih =>
    by_cases hp : (p.1 == v) = true
    · exact ⟨p.2, by unfold findAssoc; rw [List.find?_cons, hp]; rfl⟩
    · have hv' : v ∈ ps.map Prod.fst := by
        rcases List.mem_map.mp hv with ⟨q, hq, rfl⟩
        rcases List.mem_cons.mp hq with rfl | hq'
        · exact absurd (by simp) hp
        · exact List.mem_map.mpr ⟨q, hq', rfl⟩
      obtain ⟨w, hw⟩ := ih hv'
      refine ⟨w, ?_⟩
      unfold findAssoc at hw ⊢
      rw [List.find?_cons, (by simpa using hp : (p.1 == v) = false)]
      exact hw

theorem engine_fuzzy_match_ne_empty {thr : ℚ} {s1 s2 : String}
    (h : engine_fuzzy_match thr s1 s2 = true) : s1 ≠ "" ∧ s2 ≠ "" := by
  unfold engine_fuzzy_match at h
  by_cases h1 : s1 = ""
  · rw [if_pos (by simp [h1])] at h; exact absurd h (by simp)
  · by_cases h2 : s2 = ""
    · rw [if_pos (by simp [h2])] at h; exact absurd h (by simp)
    · exact ⟨h1, h2⟩

theorem pyLowerChar_space {c : Char} (h : isPySpace c = true) : pyLowerChar c = c := by
  simp only [isPySpace, Bool.or_eq_true, beq_iff_eq] at h
  rcases h with ((((h | h) | h) | h) | h) | h <;> subst h <;> decide

theorem pyLower_all_space {l : List Char} (h : ∀ c ∈ l, isPySpace c = true) :
    ∀ c ∈ pyLower l, isPySpace c = true := by
  intro c hc
  obtain ⟨a, ha, rfl⟩ := List.mem_map.mp hc
  rw [pyLowerChar_space (h a ha)]
  exact h a ha

theorem pyStrip_all_space {l : List Char} (h : ∀ c ∈ l, isPySpace c = true) :
    pyStrip l = [] := by
  unfold pyStrip
  have h1 : l.dropWhile isPySpace = [] := by
    induction l with
    | nil => rfl
    | cons c cs ih =>
      rw [List.dropWhile_cons, if_pos (h c (by simp))]
      exact ih (fun x hx => h x (by simp [hx]))
  rw [h1]
  rfl

theorem stripS_lowerS_space {s : String} (h : s.data.all isPySpace = true) :
    pyStripS (pyLowerS s) = "" := by
  unfold pyStripS pyLowerS
  have := pyStrip_all_space (pyLower_all_space (fun c hc => by
    have := List.all_eq_true.mp h c hc
    simpa using this))
  simp only [this]

/-! ## C6: normalize is idempotent and the second call is a cache hit -/

/-- C6: for every resolver instance and input, two consecutive `normalize`
calls return equal results, and the second call is answered from the cache
(keyed by the lower-cased trimmed input) without re-running the cascade. -/
theorem C6_normalize_idempotent_cache_hit (n : Normalizer) (x : String) :
    ((n.normalize x).state.normalize x).result = (n.normalize x).result ∧
    ((n.normalize x).state.normalize x).from_cache = true := by
  unfold Normalizer.normalize
  cases h : findAssoc n.cache (pyStripS (pyLowerS x)) with
  | some cached => simp [h]
  | none => simp [h, findAssoc_dictInsert_self]

/-! ## C2: empty / whitespace-only input -/

set_option maxRecDepth 40000 in
/-- C2 counterexample: on a fresh resolver, `normalize("")` does not return
`source = none`; the cascade runs (`from_cache = false`) and the
knowledge-base substring scan matches the empty stripped key against the
first variant-index entry, so the result has `source = "kb"`. -/
theorem C2_counterexample :
    ((Normalizer.normalize ⟨80, false, fun _ => none, []⟩ "").result.source = "kb" ∧
      "kb" ≠ "none") ∧
    (Normalizer.normalize ⟨80, false, fun _ => none, []⟩ "").from_cache = false :=
  ⟨⟨by decide, by decide⟩, by decide⟩

set_option maxRecDepth 40000 in
/-- C2 amended: for every resolver and every empty or whitespace-only input
not already cached, `normalize` does run the cascade (`from_cache = false`):
the stripped cache key is empty, the exact variant lookup misses, and the
substring-containment scan matches the empty string against the first
variant-index entry, so the call returns the Google knowledge-base record
with `source = "kb"` and confidence 0.95 — not `source = "none"`. -/
theorem C2_whitespace_returns_kb (n : Normalizer) (s : String)
    (hspace : s.data.all isPySpace = true)
    (hmiss : findAssoc n.cache "" = none) :
    (n.normalize s).result =
      { original := s
        normalized := "Google"
        country := "United States"
        country_code := "US"
        org_type := .company
        confidence := mkRat 19 20
        source := "kb" } ∧
    (n.normalize s).from_cache = false := by
  have hkey := stripS_lowerS_space hspace
  unfold Normalizer.normalize
  rw [hkey]
  simp only [hmiss]
  unfold normalize_internal lookup_organization
  rw [hkey]
  have hlook : lookupNormalized "" = some ⟨"Google",
      ["Google Research", "Google Brain", "Google AI", "Google Inc.", "Google LLC",
        "Google DeepMind"],
      "United States", "US", "company", some "Alphabet Inc.", ["GOOG"]⟩ := by decide
  rw [hlook]
  exact ⟨rfl, trivial⟩

set_option maxRecDepth 40000 in
/-- Witness for `C2_whitespace_returns_kb` at the one-space input on a
fresh resolver. -/
theorem C2_whitespace_returns_kb_witness :
    (" ".data.all isPySpace = true) ∧
    (findAssoc ([] : List (String × NormalizationResult)) "" = none) ∧
    ((Normalizer.normalize ⟨80, false, fun _ => none, []⟩ " ").result =
      { original := " "
        normalized := "Google"
        country := "United States"
        country_code := "US"
        org_type := .company
        confidence := mkRat 19 20
        source := "kb" } ∧
    (Normalizer.normalize ⟨80, false, fun _ => none, []⟩ " ").from_cache = false) :=
  ⟨by decide, by decide,
    C2_whitespace_returns_kb ⟨80, false, fun _ => none, []⟩ " " (by decide) (by decide)⟩

/-! ## C4: the substring-containment fallback scan -/

/-- Last-match-wins variant of `lookup_organization`, following the words
of the specification ("this is last-match-wins over an unordered scan") for
comparison with the source behaviour. -/
def lookup_organization_last_match (text : String) : Option OrgRecord :=
  let t := pyStripS (pyLowerS text)
  match findAssoc VARIANT_LOOKUP t with
  | some key => findAssoc ORGANIZATION_KB key
  | none =>
    match (VARIANT_LOOKUP.filter (fun p => isSubstr p.1 t || isSubstr t p.1)).getLast? with
    | some vk => findAssoc ORGANIZATION_KB vk.2
    | none => none

set_option maxRecDepth 40000 in
/-- C4 counterexample: `"mit stanford"` has no exact match and two
substring matches (`"stanford"`, then `"mit"` later in scan order); the
code returns the record of the FIRST matching variant (Stanford), not of
the last one (MIT) as the claim states. -/
theorem C4_counterexample :
    (findAssoc VARIANT_LOOKUP (pyStripS (pyLowerS "mit stanford")) = none) ∧
    ((lookup_organization "mit stanford").map OrgRecord.canonical =
      some "Stanford University") ∧
    ((lookup_organization_last_match "mit stanford").map OrgRecord.canonical =
      some "Massachusetts Institute of Technology") ∧
    lookup_organization "mit stanford" ≠ lookup_organization_last_match "mit stanford" :=
  ⟨by decide, by decide, by decide, by decide⟩

/-- C4 amended: for every input with no exact (case-insensitive, trimmed)
match in the variant index, the fallback substring-containment scan is
first-match-wins in dict scan order: the result is the record of the head
of the list of matching variants. -/
theorem C4_substring_first_match (text : String)
    (h1 : findAssoc VARIANT_LOOKUP (pyStripS (pyLowerS text)) = none) :
    lookup_organization text =
      match (VARIANT_LOOKUP.filter (fun p =>
          isSubstr p.1 (pyStripS (pyLowerS text)) ||
          isSubstr (pyStripS (pyLowerS text)) p.1)).head? with
      | some vk => findAssoc ORGANIZATION_KB vk.2
      | none => none := by
  unfold lookup_organization lookupNormalized
  rw [h1, find?_eq_head?_filter]

set_option maxRecDepth 40000 in
/-- Witness for `C4_substring_first_match` at `"mit stanford"`. -/
theorem C4_substring_first_match_witness :
    (findAssoc VARIANT_LOOKUP (pyStripS (pyLowerS "mit stanford")) = none) ∧
    (lookup_organization "mit stanford" =
      match (VARIANT_LOOKUP.filter (fun p =>
          isSubstr p.1 (pyStripS (pyLowerS "mit stanford")) ||
          isSubstr (pyStripS (pyLowerS "mit stanford")) p.1)).head? with
      | some vk => findAssoc ORGANIZATION_KB vk.2
      | none => none) :=
  ⟨by decide, C4_substring_first_match "mit stanford" (by decide)⟩

/-! ## C7: gold standard save/load round trip -/

theorem author_dict_roundtrip (a : GoldAuthor) :
    author_of_dict (author_to_dict a) = some a := rfl

theorem decode_encoded_authors :
    ∀ (l : List GoldAuthor), (l.map author_to_dict).mapM author_of_dict = some l := by
  intro l
  induction l with
  | nil => rfl
  | cons a as ih =>
    rw [List.map_cons, List.mapM_cons, author_dict_roundtrip, ih]
    rfl

theorem hasKey_eq_false_of_not_mem {α : Type} {l : List (String × α)} {k : String}
    (h : k ∉ l.map Prod.fst) : hasKey l k = false := by
  unfold hasKey
  rw [List.any_eq_false]
  intro p hp
  simp only [beq_iff_eq]
  intro hk
  exact h (List.mem_map.mpr ⟨p, hp, hk⟩)

theorem dataset_load_go :
    ∀ (ps acc : List (String × GoldPaper)),
      (∀ pair ∈ ps, pair.1 = pair.2.paper_id) →
      ((acc ++ ps).map Prod.fst).Nodup →
      (((ps.map Prod.snd).map (fun p => (⟨p.paper_id, p.title,
          p.authors.map author_to_dict, p.source, p.annotator, p.annotation_date,
          p.notes⟩ : SavedPaper))).foldl (fun acc pd =>
        match acc with
        | none => none
        | some m =>
          match pd.authors.mapM author_of_dict with
          | none => none
          | some authors =>
            some (dictInsert m pd.paper_id
              ⟨pd.paper_id, pd.title, authors, pd.source, pd.annotator,
                pd.annotation_date, pd.notes⟩)) (some acc)) = some (acc ++ ps) := by
  intro ps
  induction ps with
  | nil => intro acc _ _; simp
  | cons pair rest ih =>
    intro acc hkeys hnodup
    obtain ⟨k, p⟩ := pair
    have hk : k = p.paper_id := hkeys (k, p) (by simp)
    simp only [List.map_cons, List.foldl_cons, decode_encoded_authors]
    have hnotmem : p.paper_id ∉ acc.map Prod.fst := by
      intro hmem
      have : (acc.map Prod.fst).Nodup ∧ _ := ⟨(List.nodup_append.mp (by
        simpa using hnodup)).1, trivial⟩
      have hsplit := List.nodup_append.mp (by simpa using hnodup)
      have hdisj := hsplit.2.2
      exact absurd (hdisj hmem (by simp [← hk])) (by simp)
    have hins : dictInsert acc p.paper_id p = acc ++ [(p.paper_id, p)] := by
      unfold dictInsert
      rw [if_neg (by simp [hasKey_eq_false_of_not_mem hnotmem])]
    rw [hins]
    have hrest := ih (acc ++ [(p.paper_id, p)]) (fun q hq => hkeys q (by simp [hq]))
      (by
        have : (acc ++ [(p.paper_id, p)]) ++ rest = acc ++ ((p.paper_id, p) :: rest) := by
          simp
        rw [this, ← hk]
        simpa using hnodup)
    rw [hrest, ← hk]
    simp

/-- C7: saving a gold-standard store (a dict keyed by `paper_id`, so keys
are consistent and duplicate-free) and loading the file into a fresh store
reproduces the store exactly — hence paper count, author count, and every
field of every author are preserved. -/
theorem C7_dataset_roundtrip (ps : List (String × GoldPaper)) (created : String)
    (hkeys : ∀ pair ∈ ps, pair.1 = pair.2.paper_id)
    (hnodup : (ps.map Prod.fst).Nodup) :
    dataset_load (dataset_save ps created) = some ps := by
  unfold dataset_load dataset_save
  simpa using dataset_load_go ps [] hkeys (by simpa using hnodup)

/-- Witness for `C7_dataset_roundtrip` on a two-paper store. -/
theorem C7_dataset_roundtrip_witness :
    (∀ pair ∈ [("p1", (⟨"p1", "Paper One",
        [⟨"Alice", "MIT", "Massachusetts Institute of Technology", "United States",
          "US", "university"⟩], "manual", "ann", "2024-01-01", ""⟩ : GoldPaper)),
      ("p2", (⟨"p2", "Paper Two",
        [⟨"Bob", "ETH", "ETH Zurich", "Switzerland", "CH", "university"⟩,
         ⟨"Carol", "", "", "", "", ""⟩], "manual", "", "", "n"⟩ : GoldPaper))],
      pair.1 = pair.2.paper_id) ∧
    dataset_load (dataset_save [("p1", ⟨"p1", "Paper One",
        [⟨"Alice", "MIT", "Massachusetts Institute of Technology", "United States",
          "US", "university"⟩], "manual", "ann", "2024-01-01", ""⟩),
      ("p2", ⟨"p2", "Paper Two",
        [⟨"Bob", "ETH", "ETH Zurich", "Switzerland", "CH", "university"⟩,
         ⟨"Carol", "", "", "", "", ""⟩], "manual", "", "", "n"⟩)] "2024-06-01T00:00:00") =
      some [("p1", ⟨"p1", "Paper One",
        [⟨"Alice", "MIT", "Massachusetts Institute of Technology", "United States",
          "US", "university"⟩], "manual", "ann", "2024-01-01", ""⟩),
      ("p2", ⟨"p2", "Paper Two",
        [⟨"Bob", "ETH", "ETH Zurich", "Switzerland", "CH", "university"⟩,
         ⟨"Carol", "", "", "", "", ""⟩], "manual", "", "", "n"⟩)] :=
  ⟨by decide, C7_dataset_roundtrip _ "2024-06-01T00:00:00" (by decide) (by decide)⟩

/-! ## C9: ROR candidate selection -/

/-- Best fuzzy score of a candidate's own (non-empty) name variants against
the query, threaded through an accumulator. -/
def item_names_max (q : String) (acc : ℚ) (item : RORItem) : ℚ :=
  ((item.names.map (fun n => n.value)).filter (fun v => v != "")).foldl
    (fun a name => max a (tokenSortScore (pyLowerS q) (pyLowerS name))) acc

/-- The globally best fuzzy score over the top five candidates. -/
def ror_best_score (q : String) (items : List RORItem) : ℚ :=
  (items.take 5).foldl (item_names_max q) 0

theorem ror_scan_item_score (q : String) (item : RORItem) :
    ∀ (ns : List String) (st : Option RORItem × ℚ),
      (ns.foldl (fun st2 name =>
        let score := tokenSortScore (pyLowerS q) (pyLowerS name)
        if score > st2.2 then (some item, score) else st2) st).2 =
      ns.foldl (fun a name => max a (tokenSortScore (pyLowerS q) (pyLowerS name))) st.2 := by
  intro ns
  induction ns with
  | nil => intro st; rfl
  | cons name rest ih =>
    intro st
    simp only [List.foldl_cons]
    by_cases h : tokenSortScore (pyLowerS q) (pyLowerS name) > st.2
    · rw [if_pos h, ih]
      have : max st.2 (tokenSortScore (pyLowerS q) (pyLowerS name)) =
          tokenSortScore (pyLowerS q) (pyLowerS name) := max_eq_right (le_of_lt h)
      rw [this]
    · rw [if_neg h, ih]
      have : max st.2 (tokenSortScore (pyLowerS q) (pyLowerS name)) = st.2 :=
        max_eq_left (le_of_not_lt h)
      rw [this]

theorem ror_fold_score (q : String) :
    ∀ (l : List RORItem) (st : Option RORItem × ℚ),
      (l.foldl (ror_scan_item q) st).2 = l.foldl (item_names_max q) st.2 := by
  intro l
  induction l with
  | nil => intro st; rfl
  | cons item rest ih =>
    intro st
    simp only [List.foldl_cons]
    rw [ih]
    congr 1
    unfold ror_scan_item item_names_max
    exact ror_scan_item_score q item _ st

theorem ror_scan_item_shape (q : String) (item : RORItem) :
    ∀ (ns : List String) (st : Option RORItem × ℚ),
      (ns.foldl (fun st2 name =>
        let score := tokenSortScore (pyLowerS q) (pyLowerS name)
        if score > st2.2 then (some item, score) else st2) st).1 = st.1 ∨
      (ns.foldl (fun st2 name =>
        let score := tokenSortScore (pyLowerS q) (pyLowerS name)
        if score > st2.2 then (some item, score) else st2) st).1 = some item := by
  intro ns
  induction ns with
  | nil => intro st; exact Or.inl rfl
  | cons name rest ih =>
    intro st
    simp only [List.foldl_cons]
    by_cases h : tokenSortScore (pyLowerS q) (pyLowerS name) > st.2
    · rw [if_pos h]
      rcases ih ((some item, tokenSortScore (pyLowerS q) (pyLowerS name))) with h1 | h1
      · exact Or.inr h1
      · exact Or.inr h1
    · rw [if_neg h]
      exact ih st

theorem ror_fold_shape (q : String) :
    ∀ (l : List RORItem) (st : Option RORItem × ℚ),
      (l.foldl (ror_scan_item q) st).1 = st.1 ∨
      ∃ item ∈ l, (l.foldl (ror_scan_item q) st).1 = some item := by
  intro l
  induction l with
  | nil => intro st; exact Or.inl rfl
  | cons item rest ih =>
    intro st
    simp only [List.foldl_cons]
    rcases ih (ror_scan_item q st item) with h1 | h1
    · rw [h1]
      rcases ror_scan_item_shape q item _ st with h2 | h2
      · exact Or.inl h2
      · exact Or.inr ⟨item, by simp, h2⟩
    · obtain ⟨it, hit, heq⟩ := h1
      exact Or.inr ⟨it, by simp [hit], heq⟩

theorem ror_scan_item_none (q : String) (item : RORItem) :
    ∀ (ns : List String) (st : Option RORItem × ℚ),
      (ns.foldl (fun st2 name =>
        let score := tokenSortScore (pyLowerS q) (pyLowerS name)
        if score > st2.2 then (some item, score) else st2) st).1 = none →
      (ns.foldl (fun st2 name =>
        let score := tokenSortScore (pyLowerS q) (pyLowerS name)
        if score > st2.2 then (some item, score) else st2) st) = st := by
  intro ns
  induction ns with
  | nil => intro st _; rfl
  | cons name rest ih =>
    intro st hnone
    simp only [List.foldl_cons] at hnone ⊢
    by_cases h : tokenSortScore (pyLowerS q) (pyLowerS name) > st.2
    · rw [if_pos h] at hnone ⊢
      have := ih _ hnone
      rw [this] at hnone
      simp at hnone
    · rw [if_neg h] at hnone ⊢
      exact ih st hnone

theorem ror_fold_none (q : String) :
    ∀ (l : List RORItem) (st : Option RORItem × ℚ),
      (l.foldl (ror_scan_item q) st).1 = none → l.foldl (ror_scan_item q) st = st := by
  intro l
  induction l with
  | nil => intro st _; rfl
  | cons item rest ih =>
    intro st hnone
    simp only [List.foldl_cons] at hnone ⊢
    have hstep := ih _ hnone
    rw [hstep] at hnone ⊢
    exact ror_scan_item_none q item _ st hnone

/-- C9: the registry search considers only the first five candidates of the
response; it returns no match when the best fuzzy score over those
candidates' own name variants is below 60, and otherwise returns the
best-scoring candidate converted with confidence `best_score / 100`;
`get_by_id` converts with confidence 1.0. -/
theorem C9_ror_candidate_selection (q : String) (items : List RORItem) :
    ror_search q (some items) = ror_search q (some (items.take 5)) ∧
    (ror_best_score q items < 60 → ror_search q (some items) = none) ∧
    (60 ≤ ror_best_score q items →
      ∃ item, item ∈ items.take 5 ∧
        ror_search q (some items) =
          some (convert_result item (ror_best_score q items / 100))) ∧
    (∀ data : RORItem, ror_get_by_id (some data) = some (convert_result data 1) ∧
      (convert_result data 1).confidence = 1) := by
  have hscore : (ror_best q items).2 = ror_best_score q items := by
    unfold ror_best ror_best_score
    exact ror_fold_score q (items.take 5) (none, 0)
  refine ⟨?_, ?_, ?_, ?_⟩
  · cases items with
    | nil => rfl
    | cons a rest =>
      simp only [ror_search]
      have htake : ((a :: rest).take 5).take 5 = (a :: rest).take 5 := by
        rw [List.take_take]
        norm_num
      have hbest : ror_best q ((a :: rest).take 5) = ror_best q (a :: rest) := by
        unfold ror_best
        rw [htake]
      have hne : ((a :: rest).take 5).isEmpty = false := by
        simp [List.take_cons]
      simp only [hbest, hne, List.isEmpty_cons]
  · intro hlt
    simp only [ror_search]
    cases hempty : items.isEmpty with
    | true => simp
    | false =>
      rw [if_neg (by simp), if_pos (by rw [hscore]; exact hlt)]
  · intro hge
    simp only [ror_search]
    cases items with
    | nil =>
      exfalso
      have h0 : ror_best_score q ([] : List RORItem) = 0 := rfl
      rw [h0] at hge
      norm_num at hge
    | cons a rest =>
      simp only [List.isEmpty_cons]
      rw [if_neg (by simp), if_neg (by rw [hscore]; exact not_lt.mpr hge)]
      have hsome : ∃ item, (ror_best q (a :: rest)).1 = some item := by
        cases hb : (ror_best q (a :: rest)).1 with
        | some it => exact ⟨it, rfl⟩
        | none =>
          exfalso
          have hfold := ror_fold_none q ((a :: rest).take 5) (none, 0) hb
          have h2 : (ror_best q (a :: rest)).2 = 0 := by
            unfold ror_best at hfold ⊢
            rw [hfold]
          rw [hscore] at h2
          rw [h2] at hge
          norm_num at hge
      obtain ⟨item, hitem⟩ := hsome
      have hmem : item ∈ (a :: rest).take 5 := by
        rcases ror_fold_shape q ((a :: rest).take 5) (none, 0) with h1 | h1
        · exfalso
          have hn : (ror_best q (a :: rest)).1 = none := h1
          rw [hitem] at hn
          simp at hn
        · obtain ⟨it, hit, heq⟩ := h1
          have heq' : (ror_best q (a :: rest)).1 = some it := heq
          rw [hitem] at heq'
          obtain rfl : item = it := by simpa using heq'
          exact hit
      refine ⟨item, hmem, ?_⟩
      rw [hitem, hscore]
      rfl
  · intro data
    exact ⟨rfl, rfl⟩

set_option maxRecDepth 40000 in
/-- Witness for `C9_ror_candidate_selection` on a one-candidate response
whose display name equals the query (best score 100 ≥ 60). -/
theorem C9_ror_candidate_selection_witness :
    (60 ≤ ror_best_score "eth zurich"
      [⟨some "https://ror.org/05a28rw58", [⟨"ETH Zurich", ["ror_display"]⟩],
        [⟨⟨some "Switzerland", some "CH"⟩⟩], ["education"], []⟩]) ∧
    (∃ item, item ∈ ([⟨some "https://ror.org/05a28rw58",
        [⟨"ETH Zurich", ["ror_display"]⟩], [⟨⟨some "Switzerland", some "CH"⟩⟩],
        ["education"], []⟩] : List RORItem).take 5 ∧
      ror_search "eth zurich" (some [⟨some "https://ror.org/05a28rw58",
        [⟨"ETH Zurich", ["ror_display"]⟩], [⟨⟨some "Switzerland", some "CH"⟩⟩],
        ["education"], []⟩]) =
        some (convert_result item (ror_best_score "eth zurich"
          [⟨some "https://ror.org/05a28rw58", [⟨"ETH Zurich", ["ror_display"]⟩],
            [⟨⟨some "Switzerland", some "CH"⟩⟩], ["education"], []⟩] / 100))) :=
  ⟨by decide,
    (C9_ror_candidate_selection "eth zurich" _).2.2.1 (by decide)⟩

/-! ## C8: guarded denominators in evaluate_extraction -/

theorem eval_author_precision_eq (thr : ℚ) (gold : List (String × GoldPaper))
    (preds : List PaperMetadata) :
    (evaluate_extraction thr gold preds).author_precision =
      if (extraction_counts thr gold preds).author_tp +
          (extraction_counts thr gold preds).author_fp > 0 then
        mkRat (extraction_counts thr gold preds).author_tp
          ((extraction_counts thr gold preds).author_tp +
            (extraction_counts thr gold preds).author_fp)
      else 0 := rfl

theorem eval_author_recall_eq (thr : ℚ) (gold : List (String × GoldPaper))
    (preds : List PaperMetadata) :
    (evaluate_extraction thr gold preds).author_recall =
      if (extraction_counts thr gold preds).author_tp +
          (extraction_counts thr gold preds).author_fn > 0 then
        mkRat (extraction_counts thr gold preds).author_tp
          ((extraction_counts thr gold preds).author_tp +
            (extraction_counts thr gold preds).author_fn)
      else 0 := rfl

theorem eval_author_f1_eq (thr : ℚ) (gold : List (String × GoldPaper))
    (preds : List PaperMetadata) :
    (evaluate_extraction thr gold preds).author_f1 =
      if (evaluate_extraction thr gold preds).author_precision +
          (evaluate_extraction thr gold preds).author_recall > 0 then
        2 * (evaluate_extraction thr gold preds).author_precision *
          (evaluate_extraction thr gold preds).author_recall /
          ((evaluate_extraction thr gold preds).author_precision +
            (evaluate_extraction thr gold preds).author_recall)
      else 0 := rfl

theorem eval_aff_precision_eq (thr : ℚ) (gold : List (String × GoldPaper))
    (preds : List PaperMetadata) :
    (evaluate_extraction thr gold preds).affiliation_precision =
      if (extraction_counts thr gold preds).aff_tp +
          (extraction_counts thr gold preds).aff_fp > 0 then
        mkRat (extraction_counts thr gold preds).aff_tp
          ((extraction_counts thr gold preds).aff_tp +
            (extraction_counts thr gold preds).aff_fp)
      else 0 := rfl

theorem eval_aff_recall_eq (thr : ℚ) (gold : List (String × GoldPaper))
    (preds : List PaperMetadata) :
    (evaluate_extraction thr gold preds).affiliation_recall =
      if (extraction_counts thr gold preds).aff_tp +
          (extraction_counts thr gold preds).aff_fn > 0 then
        mkRat (extraction_counts thr gold preds).aff_tp
          ((extraction_counts thr gold preds).aff_tp +
            (extraction_counts thr gold preds).aff_fn)
      else 0 := rfl

theorem eval_aff_f1_eq (thr : ℚ) (gold : List (String × GoldPaper))
    (preds : List PaperMetadata) :
    (evaluate_extraction thr gold preds).affiliation_f1 =
      if (evaluate_extraction thr gold preds).affiliation_precision +
          (evaluate_extraction thr gold preds).affiliation_recall > 0 then
        2 * (evaluate_extraction thr gold preds).affiliation_precision *
          (evaluate_extraction thr gold preds).affiliation_recall /
          ((evaluate_extraction thr gold preds).affiliation_precision +
            (evaluate_extraction thr gold preds).affiliation_recall)
      else 0 := rfl

theorem eval_org_acc_eq (thr : ℚ) (gold : List (String × GoldPaper))
    (preds : List PaperMetadata) :
    (evaluate_extraction thr gold preds).org_normalization_accuracy =
      if (extraction_counts thr gold preds).total_matched > 0 then
        mkRat (extraction_counts thr gold preds).org_correct
          (extraction_counts thr gold preds).total_matched
      else 0 := rfl

theorem eval_country_acc_eq (thr : ℚ) (gold : List (String × GoldPaper))
    (preds : List PaperMetadata) :
    (evaluate_extraction thr gold preds).country_accuracy =
      if (extraction_counts thr gold preds).total_matched > 0 then
        mkRat (extraction_counts thr gold preds).country_correct
          (extraction_counts thr gold preds).total_matched
      else 0 := rfl

theorem eval_org_type_acc_eq (thr : ℚ) (gold : List (String × GoldPaper))
    (preds : List PaperMetadata) :
    (evaluate_extraction thr gold preds).org_type_accuracy =
      if (extraction_counts thr gold preds).total_matched > 0 then
        mkRat (extraction_counts thr gold preds).org_type_correct
          (extraction_counts thr gold preds).total_matched
      else 0 := rfl

theorem eval_hier_acc_eq (thr : ℚ) (gold : List (String × GoldPaper))
    (preds : List PaperMetadata) :
    (evaluate_extraction thr gold preds).hierarchical_accuracy =
      if (extraction_counts thr gold preds).total_matched > 0 then
        mkRat (extraction_counts thr gold preds).hierarchical_correct
          (extraction_counts thr gold preds).total_matched
      else 0 := rfl

theorem eval_author_halluc_eq (thr : ℚ) (gold : List (String × GoldPaper))
    (preds : List PaperMetadata) :
    (evaluate_extraction thr gold preds).author_hallucination_rate =
      if (evaluate_extraction thr gold preds).total_pred_authors > 0 then
        mkRat (extraction_counts thr gold preds).author_fp
          ((evaluate_extraction thr gold preds).total_pred_authors)
      else 0 := rfl

theorem eval_aff_halluc_eq (thr : ℚ) (gold : List (String × GoldPaper))
    (preds : List PaperMetadata) :
    (evaluate_extraction thr gold preds).affiliation_hallucination_rate =
      if (extraction_counts thr gold preds).aff_tp +
          (extraction_counts thr gold preds).aff_fp > 0 then
        mkRat (extraction_counts thr gold preds).aff_fp
          ((extraction_counts thr gold preds).aff_tp +
            (extraction_counts thr gold preds).aff_fp)
      else 0 := rfl

/-- C8: `evaluate_extraction` is a total function (no division-by-zero
exception can occur): whenever the denominator of a precision, recall, F1,
accuracy, or hallucination rate is zero, the corresponding metric keeps its
0.0 default; in particular an empty predicted-papers list yields precision
= recall = F1 = 0 for both authors and affiliations. -/
theorem C8_no_division_by_zero (thr : ℚ) (gold : List (String × GoldPaper))
    (preds : List PaperMetadata) :
    ((extraction_counts thr gold preds).author_tp +
        (extraction_counts thr gold preds).author_fp = 0 →
      (evaluate_extraction thr gold preds).author_precision = 0) ∧
    ((extraction_counts thr gold preds).author_tp +
        (extraction_counts thr gold preds).author_fn = 0 →
      (evaluate_extraction thr gold preds).author_recall = 0) ∧
    ((evaluate_extraction thr gold preds).author_precision +
        (evaluate_extraction thr gold preds).author_recall = 0 →
      (evaluate_extraction thr gold preds).author_f1 = 0) ∧
    ((extraction_counts thr gold preds).aff_tp +
        (extraction_counts thr gold preds).aff_fp = 0 →
      (evaluate_extraction thr gold preds).affiliation_precision = 0 ∧
      (evaluate_extraction thr gold preds).affiliation_hallucination_rate = 0) ∧
    ((extraction_counts thr gold preds).aff_tp +
        (extraction_counts thr gold preds).aff_fn = 0 →
      (evaluate_extraction thr gold preds).affiliation_recall = 0) ∧
    ((evaluate_extraction thr gold preds).affiliation_precision +
        (evaluate_extraction thr gold preds).affiliation_recall = 0 →
      (evaluate_extraction thr gold preds).affiliation_f1 = 0) ∧
    ((extraction_counts thr gold preds).total_matched = 0 →
      (evaluate_extraction thr gold preds).org_normalization_accuracy = 0 ∧
      (evaluate_extraction thr gold preds).country_accuracy = 0 ∧
      (evaluate_extraction thr gold preds).org_type_accuracy = 0 ∧
      (evaluate_extraction thr gold preds).hierarchical_accuracy = 0) ∧
    ((evaluate_extraction thr gold preds).total_pred_authors = 0 →
      (evaluate_extraction thr gold preds).author_hallucination_rate = 0) ∧
    (preds = [] →
      (evaluate_extraction thr gold preds).author_precision = 0 ∧
      (evaluate_extraction thr gold preds).author_recall = 0 ∧
      (evaluate_extraction thr gold preds).author_f1 = 0 ∧
      (evaluate_extraction thr gold preds).affiliation_precision = 0 ∧
      (evaluate_extraction thr gold preds).affiliation_recall = 0 ∧
      (evaluate_extraction thr gold preds).affiliation_f1 = 0) := by
  refine ⟨?_, ?_, ?_, ?_, ?_, ?_, ?_, ?_, ?_⟩
  · intro h
    rw [eval_author_precision_eq, if_neg (by omega)]
  · intro h
    rw [eval_author_recall_eq, if_neg (by omega)]
  · intro h
    rw [eval_author_f1_eq, if_neg (by rw [h]; exact lt_irrefl 0)]
  · intro h
    exact ⟨by rw [eval_aff_precision_eq, if_neg (by omega)],
      by rw [eval_aff_halluc_eq, if_neg (by omega)]⟩
  · intro h
    rw [eval_aff_recall_eq, if_neg (by omega)]
  · intro h
    rw [eval_aff_f1_eq, if_neg (by rw [h]; exact lt_irrefl 0)]
  · intro h
    refine ⟨?_, ?_, ?_, ?_⟩
    · rw [eval_org_acc_eq, if_neg (by omega)]
    · rw [eval_country_acc_eq, if_neg (by omega)]
    · rw [eval_org_type_acc_eq, if_neg (by omega)]
    · rw [eval_hier_acc_eq, if_neg (by omega)]
  · intro h
    rw [eval_author_halluc_eq, if_neg (by omega)]
  · intro h
    subst h
    have hc : extraction_counts thr gold [] = {} := rfl
    have hp : (evaluate_extraction thr gold []).author_precision = 0 := by
      rw [eval_author_precision_eq, hc, if_neg (by decide)]
    have hr : (evaluate_extraction thr gold []).author_recall = 0 := by
      rw [eval_author_recall_eq, hc, if_neg (by decide)]
    have hap : (evaluate_extraction thr gold []).affiliation_precision = 0 := by
      rw [eval_aff_precision_eq, hc, if_neg (by decide)]
    have har : (evaluate_extraction thr gold []).affiliation_recall = 0 := by
      rw [eval_aff_recall_eq, hc, if_neg (by decide)]
    refine ⟨hp, hr, ?_, hap, har, ?_⟩
    · rw [eval_author_f1_eq, hp, hr, if_neg (by norm_num)]
    · rw [eval_aff_f1_eq, hap, har, if_neg (by norm_num)]

set_option maxRecDepth 40000 in
/-- Witness for `C8_no_division_by_zero` at an empty gold store and empty
prediction list (every denominator is zero there). -/
theorem C8_no_division_by_zero_witness :
    ((extraction_counts 85 [] []).author_tp + (extraction_counts 85 [] []).author_fp = 0) ∧
    ((evaluate_extraction 85 [] []).author_precision = 0 ∧
      (evaluate_extraction 85 [] []).author_recall = 0 ∧
      (evaluate_extraction 85 [] []).author_f1 = 0 ∧
      (evaluate_extraction 85 [] []).affiliation_precision = 0 ∧
      (evaluate_extraction 85 [] []).affiliation_recall = 0 ∧
      (evaluate_extraction 85 [] []).affiliation_f1 = 0) ∧
    ((evaluate_extraction 85 [] []).org_normalization_accuracy = 0 ∧
      (evaluate_extraction 85 [] []).country_accuracy = 0 ∧
      (evaluate_extraction 85 [] []).org_type_accuracy = 0 ∧
      (evaluate_extraction 85 [] []).hierarchical_accuracy = 0) ∧
    (evaluate_extraction 85 [] []).author_hallucination_rate = 0 ∧
    (evaluate_extraction 85 [] []).affiliation_hallucination_rate = 0 :=
  ⟨by decide,
    (C8_no_division_by_zero 85 [] []).2.2.2.2.2.2.2.2 rfl,
    (C8_no_division_by_zero 85 [] []).2.2.2.2.2.2.1 (by decide),
    (C8_no_division_by_zero 85 [] []).2.2.2.2.2.2.2.1 (by decide),
    ((C8_no_division_by_zero 85 [] []).2.2.2.1 (by decide)).2⟩

/-! ## C5: the fuzzy tier of the resolver cascade -/

set_option maxRecDepth 40000 in
/-- Every value stored in the variant index is a key of the organization
table. -/
theorem variant_values_in_kb :
    VARIANT_LOOKUP.all (fun pair => (findAssoc ORGANIZATION_KB pair.2).isSome) = true := by
  decide

set_option maxRecDepth 40000 in
/-- C5 counterexample: `"stanford u"` has no exact match in the variant
index and its best fuzzy score reaches the default threshold 80, yet
`normalize` resolves it with `source = "kb"`, not `"fuzzy"`: the
substring-containment scan of the KB tier fires first. -/
theorem C5_counterexample :
    (findAssoc VARIANT_LOOKUP (pyStripS (pyLowerS "stanford u")) = none) ∧
    (∃ w bs, extractOne (pyStripS (pyLowerS "stanford u")) all_variants = some (w, bs) ∧
      (80 : ℚ) ≤ bs) ∧
    (normalize_internal ⟨80, false, fun _ => none, []⟩ "stanford u").source = "kb" ∧
    "kb" ≠ "fuzzy" := by
  refine ⟨by decide, ?_, by decide, by decide⟩
  have hmem : "stanford" ∈ all_variants := by decide
  obtain ⟨w, bs, hx, hge⟩ := extractOne_ge hmem
  refine ⟨w, bs, hx, le_trans ?_ hge⟩
  decide

/-- C5 amended: when the entire KB lookup fails (no exact match AND no
substring-containment match, i.e. `lookup_organization` returns nothing)
and the best token-sort score over all variants reaches the threshold, the
cascade resolves via the fuzzy tier with confidence
`score / 100 * 0.9`, which is strictly below the 0.95 confidence of every
kb-sourced result. -/
theorem C5_fuzzy_tier (n : Normalizer) (raw v : String) (sc : ℚ)
    (h1 : lookup_organization raw = none)
    (h2 : extractOne (pyStripS (pyLowerS raw)) all_variants = some (v, sc))
    (h3 : n.fuzzy_threshold ≤ sc) :
    (normalize_internal n raw).source = "fuzzy" ∧
    (normalize_internal n raw).confidence = sc / 100 * (9 / 10) ∧
    (normalize_internal n raw).confidence < mkRat 19 20 := by
  obtain ⟨hvmem, hsc⟩ := extractOne_spec h2
  obtain ⟨key, hkey⟩ := findAssoc_isSome_of_mem_keys
    (show v ∈ VARIANT_LOOKUP.map Prod.fst from hvmem)
  have hpair : ∃ pair, VARIANT_LOOKUP.find? (fun p => p.1 == v) = some pair ∧
      pair.2 = key := by
    unfold findAssoc at hkey
    cases hf : VARIANT_LOOKUP.find? (fun p => p.1 == v) with
    | none => rw [hf] at hkey; simp at hkey
    | some pair =>
      rw [hf] at hkey
      exact ⟨pair, rfl, by simpa using hkey⟩
  obtain ⟨pair, hfind, hpk⟩ := hpair
  have hpairmem : pair ∈ VARIANT_LOOKUP := List.mem_of_find?_eq_some hfind
  have hkb : ∃ rec, findAssoc ORGANIZATION_KB key = some rec := by
    have := List.all_eq_true.mp variant_values_in_kb pair hpairmem
    rw [hpk] at this
    cases hr : findAssoc ORGANIZATION_KB key with
    | none => rw [hr] at this; simp at this
    | some rec => exact ⟨rec, rfl⟩
  obtain ⟨rec, hrec⟩ := hkb
  have hfuzzy : normalizer_fuzzy_match n raw = some
      { original := raw
        normalized := rec.canonical
        country := rec.country
        country_code := rec.country_code
        org_type := (orgTypeOfString rec.otype).getD .unknown
        confidence := sc / 100 * (9 / 10)
        source := "fuzzy" } := by
    unfold normalizer_fuzzy_match
    simp only [h2]
    rw [if_pos h3]
    simp only [hkey, hrec]
  have hresult : normalize_internal n raw =
      { original := raw
        normalized := rec.canonical
        country := rec.country
        country_code := rec.country_code
        org_type := (orgTypeOfString rec.otype).getD .unknown
        confidence := sc / 100 * (9 / 10)
        source := "fuzzy" } := by
    unfold normalize_internal
    simp only [h1, hfuzzy]
  rw [hresult]
  refine ⟨rfl, rfl, ?_⟩
  have h100 : sc ≤ 100 := by
    rw [hsc]
    exact tokenSortScore_le_100 _ _
  have hdiv : sc / 100 ≤ 1 := by
    rw [div_le_one (by norm_num : (0:ℚ) < 100)]
    exact h100
  have hstep : sc / 100 * (9 / 10) ≤ 9 / 10 := by
    calc sc / 100 * (9 / 10) ≤ 1 * (9 / 10) :=
          mul_le_mul_of_nonneg_right hdiv (by norm_num)
    _ = 9 / 10 := by norm_num
  have hlt : (9 / 10 : ℚ) < mkRat 19 20 := by
    rw [Rat.mkRat_eq_div]
    norm_num
  exact lt_of_le_of_lt hstep hlt

set_option maxRecDepth 200000 in
/-- Witness for `C5_fuzzy_tier` at the misspelling `"stanfrod"` on a fresh
resolver with the default threshold 80 (best variant `"stanford"`, score
87.5). -/
theorem C5_fuzzy_tier_witness :
    (lookup_organization "stanfrod" = none) ∧
    (extractOne (pyStripS (pyLowerS "stanfrod")) all_variants =
      some ("stanford", mkRat 175 2)) ∧
    ((80 : ℚ) ≤ mkRat 175 2) ∧
    ((normalize_internal ⟨80, false, fun _ => none, []⟩ "stanfrod").source = "fuzzy" ∧
     (normalize_internal ⟨80, false, fun _ => none, []⟩ "stanfrod").confidence =
        mkRat 175 2 / 100 * (9 / 10) ∧
     (normalize_internal ⟨80, false, fun _ => none, []⟩ "stanfrod").confidence <
        mkRat 19 20) :=
  ⟨by decide, by decide, by decide,
    C5_fuzzy_tier ⟨80, false, fun _ => none, []⟩ "stanfrod" "stanford" (mkRat 175 2)
      (by decide) (by decide) (by decide)⟩

/-! ## C1: hierarchical accuracy versus the single-facet accuracies -/

theorem pm_author_hier_le_org (thr : ℚ) (pred : AuthorAffiliation) (g : GoldAuthor)
    (c : ExtractionCounts) (h : c.hierarchical_correct ≤ c.org_correct) :
    (process_matched_author thr pred g c).hierarchical_correct ≤
    (process_matched_author thr pred g c).org_correct := by
  simp only [process_matched_author]
  by_cases hcond : (engine_fuzzy_match thr (pred.normalized_affiliation.getD "")
      g.normalized_affiliation &&
      (exact_match_normalized (pred.country.getD "") g.country ||
       exact_match_normalized (pred.country_code.getD "") g.country_code)) = true
  · have h1 : engine_fuzzy_match thr (pred.normalized_affiliation.getD "")
        g.normalized_affiliation = true := by
      have hc := hcond
      rw [Bool.and_eq_true] at hc
      exact hc.1
    have hne := engine_fuzzy_match_ne_empty h1
    have hguard : (optTruthy pred.normalized_affiliation &&
        (g.normalized_affiliation != "")) = true := by
      rw [Bool.and_eq_true]
      refine ⟨?_, bne_iff_ne.mpr hne.2⟩
      unfold optTruthy
      simp only [Bool.not_eq_true']
      exact beq_eq_false_iff_ne.mpr hne.1
    rw [hcond, hguard, h1]
    simp only [Bool.and_self, if_pos]
    omega
  · have h0 : (if (engine_fuzzy_match thr (pred.normalized_affiliation.getD "")
        g.normalized_affiliation &&
        (exact_match_normalized (pred.country.getD "") g.country ||
         exact_match_normalized (pred.country_code.getD "") g.country_code)) = true
        then 1 else 0) = 0 := if_neg hcond
    rw [h0]
    have : c.org_correct ≤ c.org_correct +
        (if (optTruthy pred.normalized_affiliation && (g.normalized_affiliation != "")) &&
          engine_fuzzy_match thr (pred.normalized_affiliation.getD "")
            g.normalized_affiliation = true then 1 else 0) := Nat.le_add_right _ _
    omega

theorem paper_scan_hier_le_org (thr : ℚ) (gold_by_name : List (String × GoldAuthor)) :
    ∀ (authors : List AuthorAffiliation) (c : ExtractionCounts),
      c.hierarchical_correct ≤ c.org_correct →
      (authors.foldl (fun c2 pred_author =>
        match gold_by_name.find? (fun p => engine_fuzzy_match thr pred_author.name p.1) with
        | some p => process_matched_author thr pred_author p.2 c2
        | none => c2) c).hierarchical_correct ≤
      (authors.foldl (fun c2 pred_author =>
        match gold_by_name.find? (fun p => engine_fuzzy_match thr pred_author.name p.1) with
        | some p => process_matched_author thr pred_author p.2 c2
        | none => c2) c).org_correct := by
  intro authors
  induction authors with
  | nil => intro c h; exact h
  | cons a rest ih =>
    intro c h
    simp only [List.foldl_cons]
    cases hfind : gold_by_name.find? (fun p => engine_fuzzy_match thr a.name p.1) with
    | none => simp only [hfind]; exact ih c h
    | some p =>
      simp only [hfind]
      exact ih _ (pm_author_hier_le_org thr a p.2 c h)

theorem process_paper_hier_le_org (thr : ℚ) (gold : List (String × GoldPaper))
    (c : ExtractionCounts) (pp : PaperMetadata)
    (h : c.hierarchical_correct ≤ c.org_correct) :
    (process_paper thr gold c pp).hierarchical_correct ≤
    (process_paper thr gold c pp).org_correct := by
  unfold process_paper
  cases hfind : findAssoc gold pp.arxiv_id with
  | none => exact h
  | some gp =>
    simp only []
    exact paper_scan_hier_le_org thr _ pp.authors _ h

theorem counts_hier_le_org (thr : ℚ) (gold : List (String × GoldPaper))
    (preds : List PaperMetadata) :
    (extraction_counts thr gold preds).hierarchical_correct ≤
    (extraction_counts thr gold preds).org_correct := by
  unfold extraction_counts
  have main : ∀ (l : List PaperMetadata) (c : ExtractionCounts),
      c.hierarchical_correct ≤ c.org_correct →
      (l.foldl (process_paper thr gold) c).hierarchical_correct ≤
      (l.foldl (process_paper thr gold) c).org_correct := by
    intro l
    induction l with
    | nil => intro c h; exact h
    | cons pp rest ih =>
      intro c h
      simp only [List.foldl_cons]
      exact ih _ (process_paper_hier_le_org thr gold c pp h)
  exact main preds {} (le_refl 0)

/-- C1 amended: the hierarchical accuracy never exceeds the organization
normalization accuracy (both are counted over the same matched pairs, and
the hierarchical condition implies the organization condition). The claimed
bound against country accuracy is refuted by `C1_counterexample`. -/
theorem C1_hierarchical_le_org (thr : ℚ) (gold : List (String × GoldPaper))
    (preds : List PaperMetadata) :
    (evaluate_extraction thr gold preds).hierarchical_accuracy ≤
    (evaluate_extraction thr gold preds).org_normalization_accuracy := by
  rw [eval_hier_acc_eq, eval_org_acc_eq]
  by_cases h : (extraction_counts thr gold preds).total_matched > 0
  · rw [if_pos h, if_pos h, Rat.mkRat_eq_div, Rat.mkRat_eq_div]
    have hc := counts_hier_le_org thr gold preds
    have hpos : (0 : ℚ) < ((extraction_counts thr gold preds).total_matched : ℚ) := by
      exact_mod_cast h
    have hcq : ((extraction_counts thr gold preds).hierarchical_correct : ℚ) ≤
        ((extraction_counts thr gold preds).org_correct : ℚ) := by exact_mod_cast hc
    gcongr
  · rw [if_neg h, if_neg h]

set_option maxRecDepth 40000 in
/-- C1 counterexample: a matched author whose predicted country is absent
but whose country code matches gold. The country-accuracy tally skips this
author (its guard needs a truthy predicted country), while the hierarchical
tally counts it through the code match, so hierarchical accuracy 1.0
strictly exceeds country accuracy 0.0. -/
theorem C1_counterexample :
    (evaluate_extraction 85
      [("p1", ⟨"p1", "T", [⟨"John Smith", "MIT", "MIT", "United States", "US",
        "university"⟩], "manual", "", "", ""⟩)]
      [⟨"p1", "T", [⟨"John Smith", "MIT", some "MIT", none, some "US",
        .university, none, 1⟩], .completed⟩]).hierarchical_accuracy = 1 ∧
    (evaluate_extraction 85
      [("p1", ⟨"p1", "T", [⟨"John Smith", "MIT", "MIT", "United States", "US",
        "university"⟩], "manual", "", "", ""⟩)]
      [⟨"p1", "T", [⟨"John Smith", "MIT", some "MIT", none, some "US",
        .university, none, 1⟩], .completed⟩]).country_accuracy = 0 ∧
    ¬((evaluate_extraction 85
      [("p1", ⟨"p1", "T", [⟨"John Smith", "MIT", "MIT", "United States", "US",
        "university"⟩], "manual", "", "", ""⟩)]
      [⟨"p1", "T", [⟨"John Smith", "MIT", some "MIT", none, some "US",
        .university, none, 1⟩], .completed⟩]).hierarchical_accuracy ≤
      (evaluate_extraction 85
      [("p1", ⟨"p1", "T", [⟨"John Smith", "MIT", "MIT", "United States", "US",
        "university"⟩], "manual", "", "", ""⟩)]
      [⟨"p1", "T", [⟨"John Smith", "MIT", some "MIT", none, some "US",
        .university, none, 1⟩], .completed⟩]).country_accuracy) :=
  ⟨by decide, by decide, by decide⟩

/-! ## C10: the scoring pass re-matches without a consumed set -/

set_option maxRecDepth 40000 in
/-- C10: with one gold author and two distinct predicted names that both
fuzzy-match it, the greedy author matching yields one true positive
(`matched_authors = 1`), but the affiliation/normalization scoring pass
looks each predicted author up in `gold_by_name` afresh, so both predicted
authors are scored against the same gold author and `total_matched = 2`
strictly exceeds `matched_authors`. -/
theorem C10_scoring_pass_double_counts :
    (extraction_counts 85
      [("p1", ⟨"p1", "T", [⟨"John Smith", "", "", "", "", ""⟩], "manual", "", "", ""⟩)]
      [⟨"p1", "T", [⟨"John Smith", "", none, none, none, .unknown, none, 1⟩,
        ⟨"Jon Smith", "", none, none, none, .unknown, none, 1⟩], .completed⟩]).total_matched
      = 2 ∧
    (evaluate_extraction 85
      [("p1", ⟨"p1", "T", [⟨"John Smith", "", "", "", "", ""⟩], "manual", "", "", ""⟩)]
      [⟨"p1", "T", [⟨"John Smith", "", none, none, none, .unknown, none, 1⟩,
        ⟨"Jon Smith", "", none, none, none, .unknown, none, 1⟩], .completed⟩]).matched_authors
      = 1 ∧
    (evaluate_extraction 85
      [("p1", ⟨"p1", "T", [⟨"John Smith", "", "", "", "", ""⟩], "manual", "", "", ""⟩)]
      [⟨"p1", "T", [⟨"John Smith", "", none, none, none, .unknown, none, 1⟩,
        ⟨"Jon Smith", "", none, none, none, .unknown, none, 1⟩], .completed⟩]).matched_authors
      <
    (extraction_counts 85
      [("p1", ⟨"p1", "T", [⟨"John Smith", "", "", "", "", ""⟩], "manual", "", "", ""⟩)]
      [⟨"p1", "T", [⟨"John Smith", "", none, none, none, .unknown, none, 1⟩,
        ⟨"Jon Smith", "", none, none, none, .unknown, none, 1⟩], .completed⟩]).total_matched :=
  ⟨by decide, by decide, by decide⟩

/-! ## C3: evaluate_full with absent optional inputs -/

theorem evaluate_extraction_nil (thr : ℚ) (gold : List (String × GoldPaper)) :
    evaluate_extraction thr gold [] = {} := by
  unfold evaluate_extraction
  have h1 : ((gold.map Prod.snd).filter
      (fun p => ([] : List PaperMetadata).any (fun pp => pp.arxiv_id == p.paper_id))) = [] := by
    simp
  rw [h1]
  have h2 : extraction_counts thr gold [] = {} := rfl
  rw [h2]
  show metrics_of_counts {} 0 0 = {}
  simp [metrics_of_counts]

/-- C3 amended: with an empty prediction list and all optional inputs
absent, every numeric field of the extraction, agent and engineering
sections keeps its 0.0 default — but `overall_quality_score` is 0.15, not
0.0: the time-efficiency term `min(1, 60 / max(avg_time, 1))` evaluates to
1 at the default `avg_time_per_paper = 0` and contributes its full 0.15
weight. -/
theorem C3_absent_inputs_score (thr : ℚ) (gold : List (String × GoldPaper)) (ts : String) :
    (evaluate_full thr gold [] none none none none none none ts).extraction = {} ∧
    (evaluate_full thr gold [] none none none none none none ts).agent = {} ∧
    (evaluate_full thr gold [] none none none none none none ts).engineering = {} ∧
    (evaluate_full thr gold [] none none none none none none ts).overall_quality_score
      = 3 / 20 := by
  refine ⟨?_, ?_, ?_, ?_⟩
  · simp [evaluate_full, evaluate_extraction_nil, listTruthy, floatTruthy]
  · simp [evaluate_full, evaluate_extraction_nil, listTruthy, floatTruthy]
  · simp [evaluate_full, evaluate_extraction_nil, listTruthy, floatTruthy]
  · simp [evaluate_full, evaluate_extraction_nil, listTruthy, floatTruthy]
    norm_num

set_option maxRecDepth 40000 in
/-- C3 counterexample: at an empty gold store, empty predictions and all
optional inputs absent, `overall_quality_score` is not 0.0 (it is 0.15). -/
theorem C3_counterexample :
    (evaluate_full 85 [] [] none none none none none none "").overall_quality_score ≠ 0 := by
  have h : (evaluate_full 85 [] [] none none none none none none
      "").overall_quality_score = 3 / 20 := by
    simp [evaluate_full, listTruthy, floatTruthy]
    norm_num
  rw [h]
  norm_num
